import Mathlib

/-!
# gomusicbrainz: date unmarshalling and list envelopes

A shallow embedding of the decoding side of the package:

* `BrainzTime.UnmarshalXML` (src/structs.go), the custom decoder of date fields;
* the types of src/structs.go and src/annotation.go with their `xml` struct
  tags, which drive `encoding/xml` when a response is decoded.

The package's code runs on Go's standard library. The parts it runs are
embedded from the library's sources (Go 1.21): `strings.Count`,
`strings.TrimSpace`, `time.Parse` for the three layouts `"2006"`, `"2006-01"`
and `"2006-01-02"`, `time.Date`, `Time.Format` for the same layouts,
`strconv.ParseInt`, `strconv.ParseBool`, and the struct decoding of
`encoding/xml` (`Unmarshal`).

Conventions.
* A Go `string` is a sequence of bytes: `GoString := List Nat`, one number per
  byte (`48..57` are `'0'..'9'`, `45` is `'-'`, `43` is `'+'`, `32` is `' '`).
* Go `int`/`int64` values are `Int`; `uint64` values are `Nat`; conversions wrap
  explicitly through `toInt64` / `toUint64`.
* A Go `(value, error)` result is a pair whose second component is an
  `Option` error (`none` is `nil`), or an `Except` where only the value on
  success matters.
* Loops whose number of rounds is not the length of a list run on a counter
  (`fuel`) that the caller sets high enough; the doc comment says why it is.
-/

set_option autoImplicit false

/-- A Go string: its bytes. -/
abbrev GoString := List Nat

/-- Bytes of an ASCII string literal (one byte per character). -/
def ascii (s : String) : GoString := s.toList.map Char.toNat

/-- Conversion to `int64` (two's complement wrap-around). -/
def toInt64 (x : Int) : Int := (x + 9223372036854775808) % 18446744073709551616 - 9223372036854775808

/-- Conversion to `uint64` (wrap-around). -/
def toUint64 (x : Int) : Nat := (x % 18446744073709551616).toNat

/-! ## Go `strings` -/

namespace strings

/-- Go `strings.Count(s, sep)` for a one-byte separator `sep`: the number of
bytes of `s` equal to it. -/
def Count : GoString → Nat → Nat
  | [], _ => 0
  | c :: s, sep => (if c = sep then 1 else 0) + Count s sep

/-- The length in bytes of the UTF-8 encoding of a white space character (Go
`unicode.IsSpace`) at the front of `s`, or 0 when `s` does not start with one:
the ASCII ones, U+0085, U+00A0, U+1680, U+2000..U+200A, U+2028, U+2029, U+202F,
U+205F and U+3000. -/
def spaceLen (s : GoString) : Nat :=
  match s with
  | [] => 0
  | c :: r =>
    if c = 9 ∨ c = 10 ∨ c = 11 ∨ c = 12 ∨ c = 13 ∨ c = 32 then 1
    else if c = 194 ∧ (r.take 1 = [133] ∨ r.take 1 = [160]) then 2
    else if c = 225 ∧ r.take 2 = [154, 128] then 3
    else if c = 226 ∧ r.take 1 = [128] ∧
        ((128 ≤ r.getD 1 0 ∧ r.getD 1 0 ≤ 138) ∨ r.getD 1 0 = 168 ∨ r.getD 1 0 = 169
          ∨ r.getD 1 0 = 175) then 3
    else if c = 226 ∧ r.take 2 = [129, 159] then 3
    else if c = 227 ∧ r.take 2 = [128, 128] then 3
    else 0

/-- Go `strings.TrimLeftFunc(s, unicode.IsSpace)`; at most `s.length` rounds. -/
def trimLeft : Nat → GoString → GoString
  | 0, s => s
  | fuel + 1, s => if spaceLen s = 0 then s else trimLeft fuel (s.drop (spaceLen s))

/-- The length in bytes of the white space character at the end of a string,
given the string reversed (`c` is its last byte), or 0 when it does not end
with one. -/
def spaceLenRev (s : GoString) : Nat :=
  match s with
  | [] => 0
  | c :: r =>
    if c = 9 ∨ c = 10 ∨ c = 11 ∨ c = 12 ∨ c = 13 ∨ c = 32 then 1
    else if (c = 133 ∨ c = 160) ∧ r.take 1 = [194] then 2
    else if c = 128 ∧ r.take 2 = [154, 225] then 3
    else if ((128 ≤ c ∧ c ≤ 138) ∨ c = 168 ∨ c = 169 ∨ c = 175) ∧ r.take 2 = [128, 226] then 3
    else if c = 159 ∧ r.take 2 = [129, 226] then 3
    else if c = 128 ∧ r.take 2 = [128, 227] then 3
    else 0

/-- Go `strings.TrimRightFunc(s, unicode.IsSpace)` on the reversed string. -/
def trimLeftRev : Nat → GoString → GoString
  | 0, r => r
  | fuel + 1, r => if spaceLenRev r = 0 then r else trimLeftRev fuel (r.drop (spaceLenRev r))

/-- Go `strings.TrimSpace(s)`. -/
def TrimSpace (s : GoString) : GoString :=
  let l := trimLeft s.length s
  (trimLeftRev l.length l.reverse).reverse

end strings

namespace time

/-! ## Go `time`: constants -/

def secondsPerMinute : Int := 60
def secondsPerHour : Int := 60 * secondsPerMinute
def secondsPerDay : Int := 24 * secondsPerHour
def daysPer400Years : Nat := 365 * 400 + 97
def daysPer100Years : Nat := 365 * 100 + 24
def daysPer4Years : Nat := 365 * 4 + 1

/-- The year of the absolute epoch (`absoluteZeroYear`). -/
def absoluteZeroYear : Int := -292277022399

/-- The year of the internal epoch (`internalYear`): January 1, year 1. -/
def internalYear : Int := 1

/-- Go `absoluteToInternal = (absoluteZeroYear - internalYear) * 365.2425 * secondsPerDay`;
`365.2425 = 146097 / 400`. -/
def absoluteToInternal : Int := (absoluteZeroYear - internalYear) * 146097 / 400 * secondsPerDay

def internalToAbsolute : Int := -absoluteToInternal

/-- Go `unixToInternal = (1969*365 + 1969/4 - 1969/100 + 1969/400) * secondsPerDay`. -/
def unixToInternal : Int := (1969 * 365 + 1969 / 4 - 1969 / 100 + 1969 / 400) * secondsPerDay

def internalToUnix : Int := -unixToInternal

/-- Go `daysBefore[m]`: days in a non-leap year before month `m + 1`. The table
has the indices 0..12; the code never reads another index (in Go a panic), for
which this function gives 0. -/
def daysBefore (m : Int) : Int :=
  match m with
  | 0 => 0
  | 1 => 31
  | 2 => 31 + 28
  | 3 => 31 + 28 + 31
  | 4 => 31 + 28 + 31 + 30
  | 5 => 31 + 28 + 31 + 30 + 31
  | 6 => 31 + 28 + 31 + 30 + 31 + 30
  | 7 => 31 + 28 + 31 + 30 + 31 + 30 + 31
  | 8 => 31 + 28 + 31 + 30 + 31 + 30 + 31 + 31
  | 9 => 31 + 28 + 31 + 30 + 31 + 30 + 31 + 31 + 30
  | 10 => 31 + 28 + 31 + 30 + 31 + 30 + 31 + 31 + 30 + 31
  | 11 => 31 + 28 + 31 + 30 + 31 + 30 + 31 + 31 + 30 + 31 + 30
  | 12 => 31 + 28 + 31 + 30 + 31 + 30 + 31 + 31 + 30 + 31 + 30 + 31
  | _ => 0

/-- Go `isLeap`: `year%4 == 0 && (year%100 != 0 || year%400 == 0)`, with Go's
truncated remainder. -/
def isLeap (year : Int) : Bool :=
  year.tmod 4 == 0 && (year.tmod 100 != 0 || year.tmod 400 == 0)

/-- Go `daysIn(m, year)`. -/
def daysIn (m : Int) (year : Int) : Int :=
  if m == 2 && isLeap year then 29 else daysBefore m - daysBefore (m - 1)

/-! ## Go `time.Time` and `time.Date` -/

/-- A Go `*Location` other than `nil`, as a fixed zone: its offset in seconds
east of UTC. `Time` stores `nil` for UTC. -/
structure Location where
  offset : Int
  deriving DecidableEq, Repr

/-- Go `time.Time`: the three fields `wall`, `ext`, `loc`. Without a monotonic
reading (`wall` has its top bit clear) `wall` holds the nanoseconds and `ext`
the seconds since January 1, year 1, 00:00:00 UTC. -/
structure Time where
  wall : Nat
  ext : Int
  loc : Option Location
  deriving DecidableEq, Repr

/-- The zero value `time.Time{}`. -/
def Time.zero : Time := { wall := 0, ext := 0, loc := none }

/-- Go `norm(hi, lo, base)`. -/
def norm (hi lo base : Int) : Int × Int :=
  let n := (-lo - 1).tdiv base + 1
  let hi1 := if lo < 0 then hi - n else hi
  let lo1 := if lo < 0 then lo + n * base else lo
  let n := lo1.tdiv base
  if lo1 ≥ base then (hi1 + n, lo1 - n * base) else (hi1, lo1)

/-- Go `daysSinceEpoch(year)`: days from the absolute epoch to January 1 of `year`. -/
def daysSinceEpoch (year : Int) : Nat :=
  let y := toUint64 (toInt64 year - absoluteZeroYear)
  -- Add in days from 400-year cycles.
  let n := y / 400
  let y := y - 400 * n
  let d := daysPer400Years * n
  -- Add in 100-year cycles.
  let n := y / 100
  let y := y - 100 * n
  let d := d + daysPer100Years * n
  -- Add in 4-year cycles.
  let n := y / 4
  let y := y - 4 * n
  let d := d + daysPer4Years * n
  -- Add in non-leap years.
  let n := y
  d + 365 * n

/-- Go `time.Date(year, month, day, hour, min, sec, nsec, time.UTC)`. The
location is fixed to UTC (the only one `time.Parse` uses here): its zone offset
is 0 and `setLoc` stores it as `nil`. -/
def Date (year month day hour min sec nsec : Int) : Time :=
  -- Normalize month, overflowing into year.
  let m := month - 1
  let ym := norm year m 12
  let year := ym.1
  let m := ym.2
  let month := m + 1
  -- Normalize nsec, sec, min, hour, overflowing into day.
  let sn := norm sec nsec 1000000000
  let nsec := sn.2
  let ms := norm min sn.1 60
  let sec := ms.2
  let hm := norm hour ms.1 60
  let min := hm.2
  let dh := norm day hm.1 24
  let hour := dh.2
  let day := dh.1
  -- Compute days since the absolute epoch.
  let d := daysSinceEpoch year
  -- Add in days before this month.
  let d := d + toUint64 (daysBefore (month - 1))
  let d := if isLeap year && month ≥ 3 then d + 1 else d
  -- Add in days before today.
  let d := toUint64 (d + toUint64 (day - 1))
  -- Add in time elapsed today.
  let abs := toUint64 (d * secondsPerDay)
  let abs := toUint64 (abs + toUint64 (hour * secondsPerHour + min * secondsPerMinute + sec))
  let unix := toInt64 (toInt64 abs + (absoluteToInternal + internalToUnix))
  -- unixTime(unix, nsec), then setLoc(UTC)
  { wall := toUint64 nsec, ext := toInt64 (unix + unixToInternal), loc := none }

/-! ## Go `time.Parse` -/

/-- The layout elements (`std...` constants) that occur in the three layouts. -/
inductive Std
  | stdLongYear   -- "2006"
  | stdZeroMonth  -- "01"
  | stdZeroDay    -- "02"
  deriving DecidableEq, Repr

/-- A layout cut into chunks the way `nextStdChunk` cuts it: each entry is the
literal text before a layout element and the element. None of the three
layouts has literal text after its last element. -/
abbrev Layout := List (GoString × Std)

/-- The layout `"2006"`. -/
def layoutYear : Layout := [([], Std.stdLongYear)]

/-- The layout `"2006-01"`. -/
def layoutYearMonth : Layout := [([], Std.stdLongYear), ([45], Std.stdZeroMonth)]

/-- The layout `"2006-01-02"`. -/
def layoutDate : Layout :=
  [([], Std.stdLongYear), ([45], Std.stdZeroMonth), ([45], Std.stdZeroDay)]

/-- The `Message` of a Go `*time.ParseError`. -/
inductive ParseError
  | bad               -- no message: the value does not match the layout
  | extraText         -- ": extra text: ..."
  | monthOutOfRange   -- ": month out of range"
  | dayOutOfRange     -- ": day out of range"
  deriving DecidableEq, Repr

/-- Go `isDigit(s, i)`. -/
def isDigit (s : GoString) (i : Nat) : Bool :=
  match s.get? i with
  | none => false
  | some c => 48 ≤ c && c ≤ 57

/-- Go `leadingInt(s)`, with the accumulator `x` explicit; `none` is
`errLeadingInt`. -/
def leadingInt : GoString → Nat → Option (Nat × GoString)
  | [], x => some (x, [])
  | c :: s, x =>
    if c < 48 || c > 57 then some (x, c :: s)
    else if x > 9223372036854775808 / 10 then none
    else
      let x := x * 10 + c - 48
      if x > 9223372036854775808 then none else leadingInt s x

/-- Go `atoi(s)`; `none` is `errAtoi`. -/
def atoi (s : GoString) : Option Int :=
  let neg :=
    match s with
    | c :: _ => c == 45
    | [] => false
  let s :=
    match s with
    | c :: r => if c = 45 || c = 43 then r else s
    | [] => s
  match leadingInt s 0 with
  | none => none
  | some (q, rem) =>
    if rem.length > 0 then none
    else
      let x := toInt64 q
      some (if neg then toInt64 (-x) else x)

/-- Go `getnum(s, fixed)`; `none` is `errBad`. -/
def getnum (s : GoString) (fixed : Bool) : Option (Int × GoString) :=
  if !isDigit s 0 then none
  else if !isDigit s 1 then
    if fixed then none
    else some (((s.headD 0 - 48 : Nat) : Int), s.drop 1)
  else some ((((s.headD 0 - 48) * 10 + (s.getD 1 0 - 48) : Nat) : Int), s.drop 2)

/-- Go `cutspace(s)`. -/
def cutspace : GoString → GoString
  | c :: s => if c = 32 then cutspace s else c :: s
  | [] => []

/-- The loop of Go `skip(value, pre)`; each round removes at least one byte of
`pre`, so `pre.length` rounds always suffice. `none` is `errBad`. -/
def skipLoop : Nat → GoString → GoString → Option GoString
  | _, value, [] => some value
  | 0, _, _ :: _ => none
  | fuel + 1, value, p :: pre =>
    if p = 32 then
      match value with
      | v :: _ => if v ≠ 32 then none else skipLoop fuel (cutspace value) (cutspace (p :: pre))
      | [] => skipLoop fuel (cutspace value) (cutspace (p :: pre))
    else
      match value with
      | [] => none
      | v :: value => if v ≠ p then none else skipLoop fuel value pre

/-- Go `skip(value, pre)`. -/
def skip (value pre : GoString) : Option GoString := skipLoop pre.length value pre

/-- The date fields `time.Parse` collects, with their initial values. -/
structure Fields where
  year : Int := 0
  month : Int := -1
  day : Int := -1
  deriving DecidableEq, Repr

/-- The chunk loop of Go `time.Parse`, for the layout elements of `Std`. -/
def parseLoop : Layout → GoString → Fields → Except ParseError Fields
  | [], value, f =>
    -- nextStdChunk finds no further element: the rest of the layout is empty
    if value.length ≠ 0 then .error ParseError.extraText else .ok f
  | (pre, std) :: layout, value, f =>
    match skip value pre with
    | none => .error ParseError.bad
    | some value =>
      match std with
      | Std.stdLongYear =>
        if value.length < 4 || !isDigit value 0 then .error ParseError.bad
        else
          match atoi (value.take 4) with
          | none => .error ParseError.bad
          | some year => parseLoop layout (value.drop 4) { f with year := year }
      | Std.stdZeroMonth =>
        match getnum value true with
        | none => .error ParseError.bad
        | some (month, value) =>
          if month ≤ 0 || 12 < month then .error ParseError.monthOutOfRange
          else parseLoop layout value { f with month := month }
      | Std.stdZeroDay =>
        match getnum value true with
        | none => .error ParseError.bad
        | some (day, value) => parseLoop layout value { f with day := day }

/-- Go `time.Parse(layout, value)`: on failure the time is `Time{}`. -/
def Parse (layout : Layout) (value : GoString) : Time × Option ParseError :=
  match parseLoop layout value {} with
  | .error e => (Time.zero, some e)
  | .ok f =>
    let month := if f.month < 0 then 1 else f.month
    let day := if f.day < 0 then 1 else f.day
    -- Validate the day of the month.
    if day < 1 || day > daysIn month f.year then (Time.zero, some ParseError.dayOutOfRange)
    else (Date f.year month day 0 0 0 0, none)

/-! ## Go `Time.Format` -/

/-- Go `wallToInternal`. -/
def wallToInternal : Int := (1884 * 365 + 1884 / 4 - 1884 / 100 + 1884 / 400) * secondsPerDay

/-- Go `(t *Time) sec()`: seconds since January 1, year 1. Bit 63 of `wall` is
`hasMonotonic`; `nsecShift` is 30. -/
def Time.sec (t : Time) : Int :=
  if t.wall / 9223372036854775808 % 2 = 1 then
    toInt64 (wallToInternal + toInt64 ((t.wall * 2 % 18446744073709551616 / 2147483648 : Nat) : Int))
  else t.ext

/-- Go `(t *Time) unixSec()`. -/
def Time.unixSec (t : Time) : Int := toInt64 (t.sec + internalToUnix)

/-- Go `(t Time) locabs()`, its `abs` result: the absolute time, shifted by the
zone offset unless the location is UTC (`nil`). -/
def Time.locabs (t : Time) : Nat :=
  let sec := t.unixSec
  let sec :=
    match t.loc with
    | none => sec
    | some l => toInt64 (sec + l.offset)
  toUint64 (sec + (unixToInternal + internalToAbsolute))

/-- The cycle arithmetic that opens Go `absDate(abs, full)`: the number of
years since the absolute epoch and the day of the year (from 0). -/
def absYearDay (abs : Nat) : Nat × Nat :=
  -- Split into time and day.
  let d := abs / 86400
  -- Account for 400 year cycles.
  let n := d / daysPer400Years
  let y := 400 * n
  let d := d - daysPer400Years * n
  -- Cut off 100-year cycles.
  let n := d / daysPer100Years
  let n := n - n / 4
  let y := y + 100 * n
  let d := d - daysPer100Years * n
  -- Cut off 4-year cycles.
  let n := d / daysPer4Years
  let y := y + 4 * n
  let d := d - daysPer4Years * n
  -- Cut off years within a 4-year cycle.
  let n := d / 365
  let n := n - n / 4
  let y := y + n
  let d := d - 365 * n
  (y, d)

/-- The second half of Go `absDate(abs, true)`: month and day of month from
the day of the year `yday` (from 0) of a leap or non-leap year. -/
def absMonthDay (leap : Bool) (yday : Int) : Int × Int :=
  let day := yday
  if leap && day == 31 + 29 - 1 then
    -- Leap day.
    (2, 29)
  else
    -- After leap day; pretend it was not there.
    let day := if leap && day > 31 + 29 - 1 then day - 1 else day
    -- Estimate month on assumption that every month has 31 days.
    -- The estimate may be too low by at most one month, so adjust.
    let month := day.tdiv 31
    let e := daysBefore (month + 1)
    let begin := if day ≥ e then e else daysBefore month
    let month := if day ≥ e then month + 1 else month
    (month + 1, day - begin + 1)

/-- Go `absDate(abs, true)`: year, month and day of month (the fourth result,
the day of the year, is not needed by the three layouts). -/
def absDate (abs : Nat) : Int × Int × Int :=
  let yd := absYearDay abs
  let year := toInt64 (toInt64 yd.1 + absoluteZeroYear)
  let md := absMonthDay (isLeap year) yd.2
  (year, md.1, md.2)

/-- The general path of Go `appendInt`: the decimal digits of `u`, most
significant first, in front of `acc`; `u + 1` rounds always suffice. -/
def decimalLoop : Nat → Nat → GoString → GoString
  | 0, _, acc => acc
  | fuel + 1, u, acc =>
    if u ≥ 10 then decimalLoop fuel (u / 10) ((48 + (u - u / 10 * 10)) :: acc)
    else (48 + u) :: acc

/-- Go `appendInt(b, x, width)`: `x` in decimal, zero-padded to `width`. -/
def appendInt (b : GoString) (x : Int) (width : Nat) : GoString :=
  let u := if x < 0 then toUint64 (-x) else toUint64 x
  let b := if x < 0 then b ++ [45] else b
  -- 2-digit and 4-digit fields are the most common in time formats.
  if width = 2 ∧ u < 100 then b ++ [48 + u / 10, 48 + u % 10]
  else if width = 4 ∧ u < 10000 then
    b ++ [48 + u / 1000, 48 + u / 100 % 10, 48 + u / 10 % 10, 48 + u % 10]
  else
    let digits := decimalLoop (u + 1) u []
    b ++ List.replicate (width - digits.length) 48 ++ digits

/-- The chunk loop of Go `Time.AppendFormat`, for the layout elements of `Std`. -/
def formatLoop : Layout → Int × Int × Int → GoString → GoString
  | [], _, b => b
  | (pre, std) :: layout, (year, month, day), b =>
    let b := b ++ pre
    let b :=
      match std with
      | Std.stdLongYear => appendInt b year 4
      | Std.stdZeroMonth => appendInt b month 2
      | Std.stdZeroDay => appendInt b day 2
    formatLoop layout (year, month, day) b

/-- Go `t.Format(layout)`. -/
def Time.Format (t : Time) (layout : Layout) : GoString :=
  formatLoop layout (absDate t.locabs) []

end time

/-! ## Go `strconv.ParseInt`, `strconv.ParseBool` -/

namespace strconv

/-- The `Err` of a Go `*strconv.NumError`. -/
inductive NumError
  | invalid      -- ErrSyntax
  | outOfRange   -- ErrRange
  deriving DecidableEq, Repr

/-- The digit loop of Go `ParseUint(s, 10, 64)`, with the accumulator `n`
explicit. On `ErrRange` `ParseUint` returns `maxVal` with the error. -/
def parseUintLoop : GoString → Nat → Nat × Option NumError
  | [], n => (n, none)
  | c :: s, n =>
    if 48 ≤ c ∧ c ≤ 57 then
      let d := c - 48
      -- cutoff = maxUint64/10 + 1
      if n ≥ 18446744073709551615 / 10 + 1 then (18446744073709551615, some NumError.outOfRange)
      else
        let n := n * 10
        let n1 := n + d
        if n1 > 18446744073709551615 then (18446744073709551615, some NumError.outOfRange)
        else parseUintLoop s n1
    else (0, some NumError.invalid)

/-- Go `ParseUint(s, 10, 64)`. -/
def ParseUint (s : GoString) : Nat × Option NumError :=
  if s.length = 0 then (0, some NumError.invalid) else parseUintLoop s 0

/-- Go `ParseInt(s, 10, 64)`. -/
def ParseInt (s : GoString) : Int × Option NumError :=
  match s with
  | [] => (0, some NumError.invalid)
  | c :: r =>
    -- Pick off leading sign.
    let neg := c == 45
    let s := if c = 43 ∨ c = 45 then r else c :: r
    -- Convert unsigned and check range.
    let un := (ParseUint s).1
    let err := (ParseUint s).2
    if err = some NumError.invalid then (0, err)
    else
      let cutoff := 9223372036854775808
      if !neg && un ≥ cutoff then (9223372036854775807, some NumError.outOfRange)
      else if neg && un > cutoff then (-9223372036854775808, some NumError.outOfRange)
      else
        let n := toInt64 un
        (if neg then toInt64 (-n) else n, none)

/-- Go `ParseBool(str)`. -/
def ParseBool (str : GoString) : Bool × Option NumError :=
  if str = ascii "1" ∨ str = ascii "t" ∨ str = ascii "T" ∨ str = ascii "TRUE" ∨ str = ascii "true"
      ∨ str = ascii "True" then (true, none)
  else if str = ascii "0" ∨ str = ascii "f" ∨ str = ascii "F" ∨ str = ascii "FALSE"
      ∨ str = ascii "false" ∨ str = ascii "False" then (false, none)
  else (false, some NumError.invalid)

end strconv

/-! ## Go `encoding/xml`: the part of `Unmarshal` that the struct tags of this
package use -/

namespace xml

/-- Go `xml.Name`. -/
structure Name where
  Space : GoString
  Local : GoString
  deriving DecidableEq, Repr

/-- Go `xml.Attr`. -/
structure Attr where
  Name : Name
  Value : GoString
  deriving DecidableEq, Repr

/-- Go `xml.StartElement`. -/
structure StartElement where
  Name : Name
  Attr : List Attr
  deriving DecidableEq, Repr

/-- A well-formed piece of a document as the decoder reads it: an element (its
start token and the tokens up to the matching end token), character data, or a
token that `Unmarshal` passes over (comment, processing instruction,
directive). The tokens are those of a document that the decoder tokenizes
without error: XML 1.0 in UTF-8, with name spaces resolved in the names. -/
inductive Node
  | element (start : StartElement) (children : List Node)
  | charData (data : GoString)
  | other

/-- The errors that decoding can return here. -/
inductive Error
  | time (e : time.ParseError)    -- returned by `BrainzTime.UnmarshalXML`
  | num (e : strconv.NumError)    -- returned by `copyValue`
  | noElement                     -- the input ended before a start element
  deriving DecidableEq, Repr

/-- The character data that `unmarshal` collects while it walks the children
of an element (`data = append(data, t...)`). -/
def charData : List Node → GoString
  | [] => []
  | Node.charData d :: rest => d ++ charData rest
  | _ :: rest => charData rest

/-- Go `copyValue(dst, src)` for `dst` of kind `Int`. -/
def copyInt (src : GoString) : Except Error Int :=
  if src.length = 0 then .ok 0
  else
    match (strconv.ParseInt (strings.TrimSpace src)).2 with
    | some e => .error (Error.num e)
    | none => .ok (strconv.ParseInt (strings.TrimSpace src)).1

/-- Go `copyValue(dst, src)` for `dst` of kind `Bool`. -/
def copyBool (src : GoString) : Except Error Bool :=
  if src.length = 0 then .ok false
  else
    match (strconv.ParseBool (strings.TrimSpace src)).2 with
    | some e => .error (Error.num e)
    | none => .ok (strconv.ParseBool (strings.TrimSpace src)).1

/-- A field of a struct as `getTypeInfo` records it from the field's `xml` tag,
together with the way `unmarshal` stores into it. -/
inductive Field (σ : Type)
  /-- A field tagged `name,attr`: `set` is `unmarshalAttr` into the field. -/
  | attr (xmlns name : GoString) (set : GoString → σ → Except Error σ)
  /-- A field tagged `a>b>name`: `unmarshal` is `d.unmarshal` into the field. -/
  | element (xmlns : GoString) (parents : List GoString) (name : GoString)
      (unmarshal : StartElement → List Node → σ → Except Error σ)
  /-- A field tagged `,chardata`: `set` is `copyValue` into the field. -/
  | chardata (set : GoString → σ → Except Error σ)

/-- The inner loop of the attribute assignment: every `attr` field whose name
(and name space, when the tag gives one) is that of `a` receives its value. -/
def assignAttr {σ : Type} : List (Field σ) → Attr → σ → Except Error σ
  | [], _, sv => .ok sv
  | Field.attr xmlns name set :: fields, a, sv =>
    if a.Name.Local = name ∧ (xmlns = [] ∨ xmlns = a.Name.Space) then
      match set a.Value sv with
      | .error e => .error e
      | .ok sv => assignAttr fields a sv
    else assignAttr fields a sv
  | _ :: fields, a, sv => assignAttr fields a sv

/-- The attribute assignment of `unmarshal` for a struct: `for _, a := range start.Attr`. -/
def assignAttrs {σ : Type} (tinfo : List (Field σ)) : List Attr → σ → Except Error σ
  | [], sv => .ok sv
  | a :: attrs, sv =>
    match assignAttr tinfo a sv with
    | .error e => .error e
    | .ok sv => assignAttrs tinfo attrs sv

/-- What the field loop of `unmarshalPath` finds for a start element. -/
inductive Match (σ : Type)
  | perfect (unmarshal : StartElement → List Node → σ → Except Error σ)
  | recurse (parents : List GoString)
  | noMatch

/-- The field loop of Go `unmarshalPath(tinfo, sv, parents, start, depth)`. -/
def matchField {σ : Type} : List (Field σ) → List GoString → StartElement → Match σ
  | [], _, _ => Match.noMatch
  | Field.element xmlns fparents name unmarshal :: fields, parents, start =>
    if fparents.length < parents.length ∨ (xmlns ≠ [] ∧ xmlns ≠ start.Name.Space) then
      matchField fields parents start
    else if fparents.take parents.length ≠ parents then matchField fields parents start
    else if fparents.length = parents.length ∧ name = start.Name.Local then
      -- a perfect match: unmarshal the field
      Match.perfect unmarshal
    else if fparents.length > parents.length ∧ fparents.get? parents.length = some start.Name.Local
    then
      -- a prefix for the field: break and recurse
      Match.recurse (fparents.take (parents.length + 1))
    else matchField fields parents start
  | _ :: fields, parents, start => matchField fields parents start

/-- The token loop inside Go `unmarshalPath`: each child element goes through
`step` (the recursive call) and is skipped when not consumed. -/
def pathChildren {σ : Type} (step : StartElement → List Node → σ → Except Error (Bool × σ)) :
    List Node → σ → Except Error σ
  | [], sv => .ok sv
  | Node.element start children :: rest, sv =>
    match step start children sv with
    | .error e => .error e
    | .ok r => pathChildren step rest r.2
  | _ :: rest, sv => pathChildren step rest sv

/-- Go `unmarshalPath(tinfo, sv, parents, start, depth)` on the element `start`
with the tokens `children` up to its end: the result says whether the element
was consumed. The recursion follows a field path `a>b>name` one name at a time,
so `fuel` larger than the longest path never runs out. -/
def unmarshalPath {σ : Type} (tinfo : List (Field σ)) :
    Nat → List GoString → StartElement → List Node → σ → Except Error (Bool × σ)
  | fuel, parents, start, children, sv =>
    match matchField tinfo parents start with
    | Match.perfect unmarshal =>
      match unmarshal start children sv with
      | .error e => .error e
      | .ok sv => .ok (true, sv)
    | Match.noMatch => .ok (false, sv)
    | Match.recurse parents =>
      match fuel with
      | 0 => .ok (true, sv)
      | fuel + 1 =>
        match pathChildren (unmarshalPath tinfo fuel parents) children sv with
        | .error e => .error e
        | .ok sv => .ok (true, sv)

/-- The length of the longest field path of a struct. -/
def pathDepth {σ : Type} : List (Field σ) → Nat
  | [] => 0
  | Field.element _ parents _ _ :: fields => max parents.length (pathDepth fields)
  | _ :: fields => pathDepth fields

/-- The token loop of `unmarshal` for a struct: each child element goes through
`unmarshalPath` and is skipped when no field consumes it; character data is
collected apart (`charData`). -/
def unmarshalChildren {σ : Type} (tinfo : List (Field σ)) : List Node → σ → Except Error σ
  | [], sv => .ok sv
  | Node.element start children :: rest, sv =>
    match unmarshalPath tinfo (pathDepth tinfo) [] start children sv with
    | .error e => .error e
    | .ok r => unmarshalChildren tinfo rest r.2
  | _ :: rest, sv => unmarshalChildren tinfo rest sv

/-- The first `,chardata` field of a struct (`saveData`). -/
def saveData {σ : Type} : List (Field σ) → Option (GoString → σ → Except Error σ)
  | [] => none
  | Field.chardata set :: _ => some set
  | _ :: fields => saveData fields

/-- Go `d.unmarshal(val, start, depth)` for `val` of kind `Struct` with the
fields `tinfo`: assign the attributes, walk the children, store the character
data. -/
def unmarshalStruct {σ : Type} (tinfo : List (Field σ)) (start : StartElement)
    (children : List Node) (sv : σ) : Except Error σ :=
  match assignAttrs tinfo start.Attr sv with
  | .error e => .error e
  | .ok sv =>
    match unmarshalChildren tinfo children sv with
    | .error e => .error e
    | .ok sv =>
      match saveData tinfo with
      | none => .ok sv
      | some set => set (charData children) sv

/-- Go `xml.Unmarshal(data, v)` for `v` pointing to a struct with the fields
`tinfo`, on a well-formed document given as its top-level tokens: the first
start element is decoded into `v`. The result is the value of `*v` when
`Unmarshal` returns `nil`, or the error. -/
def Unmarshal {σ : Type} (tinfo : List (Field σ)) : List Node → σ → Except Error σ
  | [], _ => .error Error.noElement
  | Node.element start children :: _, v => unmarshalStruct tinfo start children v
  | _ :: rest, v => Unmarshal tinfo rest v

/-! ### `unmarshal` and `unmarshalAttr` by the kind of the field -/

/-- An element field of kind `String`: the collected character data is stored. -/
def stringElement {σ : Type} (name : GoString) (set : GoString → σ → σ) : Field σ :=
  Field.element [] [] name (fun _ children sv => .ok (set (charData children) sv))

/-- An element field of kind `Bool`: `copyValue` of the collected character data. -/
def boolElement {σ : Type} (name : GoString) (set : Bool → σ → σ) : Field σ :=
  Field.element [] [] name (fun _ children sv =>
    match copyBool (charData children) with
    | .error e => .error e
    | .ok b => .ok (set b sv))

/-- An element field of kind `Struct` with the fields `tinfo`: the element is
decoded into the field's current value. -/
def structElement {σ τ : Type} (name : GoString) (tinfo : List (Field τ)) (get : σ → τ)
    (set : τ → σ → σ) : Field σ :=
  Field.element [] [] name (fun start children sv =>
    match unmarshalStruct tinfo start children (get sv) with
    | .error e => .error e
    | .ok v => .ok (set v sv))

/-- An element field of kind `Slice` whose elements are structs with the fields
`tinfo`: the slice grows by one zero element and the element is decoded into
it; on an error the slice keeps its length and the error is returned. -/
def sliceElement {σ τ : Type} (parents : List GoString) (name : GoString)
    (tinfo : List (Field τ)) (zero : τ) (get : σ → List τ) (set : List τ → σ → σ) : Field σ :=
  Field.element [] parents name (fun start children sv =>
    match unmarshalStruct tinfo start children zero with
    | .error e => .error e
    | .ok v => .ok (set (get sv ++ [v]) sv))

/-- An attribute field of kind `String`. -/
def stringAttr {σ : Type} (name : GoString) (set : GoString → σ → σ) : Field σ :=
  Field.attr [] name (fun value sv => .ok (set value sv))

/-- An attribute field of kind `Int`, in the name space `xmlns` when the tag
gives one. -/
def intAttr {σ : Type} (xmlns name : GoString) (set : Int → σ → σ) : Field σ :=
  Field.attr xmlns name (fun value sv =>
    match copyInt value with
    | .error e => .error e
    | .ok n => .ok (set n sv))

/-- A `,chardata` field of kind `String`. -/
def stringChardata {σ : Type} (set : GoString → σ → σ) : Field σ :=
  Field.chardata (fun data sv => .ok (set data sv))

end xml

deriving instance DecidableEq for Except

/-! ## src/structs.go: the types, their `xml` tags, and `BrainzTime.UnmarshalXML` -/

/-- The type `BrainzTime` of src/structs.go: a struct embedding `time.Time`. -/
structure BrainzTime where
  Time : time.Time
  deriving DecidableEq, Repr

/-- The method `(t *BrainzTime) UnmarshalXML(d, start)` of src/structs.go. `t`
is the receiver's value on entry and `v` the string that `d.DecodeElement`
stored (the element's character data); the result is the receiver's value on
return and the returned error. -/
def BrainzTime.UnmarshalXML (t : BrainzTime) (v : GoString) : BrainzTime × Option time.ParseError :=
  let r : time.Time × Option time.ParseError :=
    match strings.Count v 45 with
    | 0 => time.Parse time.layoutYear v
    | 1 => time.Parse time.layoutYearMonth v
    | 2 => time.Parse time.layoutDate v
    | _ => (time.Time.zero, none)
  let p := r.1
  let err := r.2
  match err with
  | some e => (t, some e)
  | none => ({ Time := p }, none)

/-- An element field of type `BrainzTime`, which implements `xml.Unmarshaler`:
`unmarshal` calls `UnmarshalXML` on the field, whose `d.DecodeElement(&v, &start)`
stores the character data of the element in `v`. -/
def BrainzTime.element {σ : Type} (name : GoString) (get : σ → BrainzTime)
    (set : BrainzTime → σ → σ) : xml.Field σ :=
  xml.Field.element [] [] name (fun _ children sv =>
    match (BrainzTime.UnmarshalXML (get sv) (xml.charData children)).2 with
    | some e => .error (xml.Error.time e)
    | none => .ok (set (BrainzTime.UnmarshalXML (get sv) (xml.charData children)).1 sv))

/-- The zero `BrainzTime`. -/
def BrainzTime.zero : BrainzTime := { Time := time.Time.zero }

/-- The type `Lifespan` of src/structs.go. -/
structure Lifespan where
  Ended : Bool
  Begin : BrainzTime
  End : BrainzTime
  deriving DecidableEq, Repr

def Lifespan.zero : Lifespan := { Ended := false, Begin := BrainzTime.zero, End := BrainzTime.zero }

/-- The tags `xml:"ended"`, `xml:"begin"`, `xml:"end"`. -/
def Lifespan.tinfo : List (xml.Field Lifespan) :=
  [ xml.boolElement (ascii "ended") (fun b v => { v with Ended := b }),
    BrainzTime.element (ascii "begin") (fun v => v.Begin) (fun t v => { v with Begin := t }),
    BrainzTime.element (ascii "end") (fun v => v.End) (fun t v => { v with End := t }) ]

/-- The element type of `Aliases` (src/structs.go), an anonymous struct. -/
structure Aliases_Elem where
  Name : GoString
  SortName : GoString
  deriving DecidableEq, Repr

def Aliases_Elem.zero : Aliases_Elem := { Name := [], SortName := [] }

/-- The tags `xml:",chardata"`, `xml:"sort-name,attr"`. -/
def Aliases_Elem.tinfo : List (xml.Field Aliases_Elem) :=
  [ xml.stringChardata (fun s v => { v with Name := s }),
    xml.stringAttr (ascii "sort-name") (fun s v => { v with SortName := s }) ]

/-- The type `Aliases` of src/structs.go. -/
abbrev Aliases := List Aliases_Elem

/-- The type `Artist` of src/structs.go (`Typ` is the field `Type`). -/
structure Artist where
  Id : GoString
  Typ : GoString
  Name : GoString
  SortName : GoString
  CountryCode : GoString
  Lifespan : Lifespan
  Aliases : Aliases
  deriving DecidableEq, Repr

def Artist.zero : Artist :=
  { Id := [], Typ := [], Name := [], SortName := [], CountryCode := [], Lifespan := Lifespan.zero,
    Aliases := [] }

/-- The tags of `Artist`: `id,attr`, `type,attr`, `name`, `sort-name`,
`country`, `life-span`, `alias-list>alias`. -/
def Artist.tinfo : List (xml.Field Artist) :=
  [ xml.stringAttr (ascii "id") (fun s v => { v with Id := s }),
    xml.stringAttr (ascii "type") (fun s v => { v with Typ := s }),
    xml.stringElement (ascii "name") (fun s v => { v with Name := s }),
    xml.stringElement (ascii "sort-name") (fun s v => { v with SortName := s }),
    xml.stringElement (ascii "country") (fun s v => { v with CountryCode := s }),
    xml.structElement (ascii "life-span") Lifespan.tinfo (fun v => v.Lifespan)
      (fun l v => { v with Lifespan := l }),
    xml.sliceElement [ascii "alias-list"] (ascii "alias") Aliases_Elem.tinfo Aliases_Elem.zero
      (fun v => v.Aliases) (fun l v => { v with Aliases := l }) ]

/-- The field `ArtistList` of `artistSearchRequest`, an anonymous struct. -/
structure artistSearchRequest_ArtistList where
  Count : Int
  Offset : Int
  Artists : List Artist
  deriving DecidableEq, Repr

def artistSearchRequest_ArtistList.zero : artistSearchRequest_ArtistList :=
  { Count := 0, Offset := 0, Artists := [] }

/-- The tags `xml:"count,attr"`, `xml:"offset,attr"`, `xml:"artist"`. -/
def artistSearchRequest_ArtistList.tinfo : List (xml.Field artistSearchRequest_ArtistList) :=
  [ xml.intAttr [] (ascii "count") (fun n v => { v with Count := n }),
    xml.intAttr [] (ascii "offset") (fun n v => { v with Offset := n }),
    xml.sliceElement [] (ascii "artist") Artist.tinfo Artist.zero (fun v => v.Artists)
      (fun l v => { v with Artists := l }) ]

/-- The type `artistSearchRequest` of src/structs.go. -/
structure artistSearchRequest where
  ArtistList : artistSearchRequest_ArtistList
  deriving DecidableEq, Repr

def artistSearchRequest.zero : artistSearchRequest :=
  { ArtistList := artistSearchRequest_ArtistList.zero }

/-- The tag `xml:"artist-list"`. -/
def artistSearchRequest.tinfo : List (xml.Field artistSearchRequest) :=
  [ xml.structElement (ascii "artist-list") artistSearchRequest_ArtistList.tinfo
      (fun v => v.ArtistList) (fun l v => { v with ArtistList := l }) ]

/-- The type `LabelInfo` of src/structs.go. -/
structure LabelInfo where
  CatalogNumber : GoString
  deriving DecidableEq, Repr

def LabelInfo.zero : LabelInfo := { CatalogNumber := [] }

/-- The tag `xml:"catalog-number"`. -/
def LabelInfo.tinfo : List (xml.Field LabelInfo) :=
  [ xml.stringElement (ascii "catalog-number") (fun s v => { v with CatalogNumber := s }) ]

/-- The type `Medium` of src/structs.go. -/
structure Medium where
  format : GoString
  deriving DecidableEq, Repr

def Medium.zero : Medium := { format := [] }

/-- The only field of `Medium`, `format`, is not exported, so `encoding/xml`
leaves it out: the struct has no fields to decode into. -/
def Medium.tinfo : List (xml.Field Medium) := []

/-- The field `NameCredit` of the field `ArtistCredit` of `Release`. -/
structure Release_NameCredit where
  Artist : Artist
  deriving DecidableEq, Repr

/-- The tag `xml:"artist"`. -/
def Release_NameCredit.tinfo : List (xml.Field Release_NameCredit) :=
  [ xml.structElement (ascii "artist") Artist.tinfo (fun v => v.Artist)
      (fun a v => { v with Artist := a }) ]

/-- The field `ArtistCredit` of `Release`, an anonymous struct. -/
structure Release_ArtistCredit where
  NameCredit : Release_NameCredit
  deriving DecidableEq, Repr

/-- The tag `xml:"name-credit"`. -/
def Release_ArtistCredit.tinfo : List (xml.Field Release_ArtistCredit) :=
  [ xml.structElement (ascii "name-credit") Release_NameCredit.tinfo (fun v => v.NameCredit)
      (fun a v => { v with NameCredit := a }) ]

/-- The type `Release` of src/structs.go. -/
structure Release where
  Id : GoString
  Title : GoString
  Status : GoString
  ArtistCredit : Release_ArtistCredit
  Date : BrainzTime
  CountryCode : GoString
  Barcode : GoString
  Asin : GoString
  LabelInfos : List LabelInfo
  Media : List Medium
  deriving DecidableEq, Repr

def Release.zero : Release :=
  { Id := [], Title := [], Status := [], ArtistCredit := { NameCredit := { Artist := Artist.zero } },
    Date := BrainzTime.zero, CountryCode := [], Barcode := [], Asin := [], LabelInfos := [],
    Media := [] }

/-- The tags of `Release`: `id,attr`, `title`, `status`, `artist-credit`,
`date`, `country`, `barcode`, `asin`, `label-info-list>label-info`,
`medium-list>medium`. -/
def Release.tinfo : List (xml.Field Release) :=
  [ xml.stringAttr (ascii "id") (fun s v => { v with Id := s }),
    xml.stringElement (ascii "title") (fun s v => { v with Title := s }),
    xml.stringElement (ascii "status") (fun s v => { v with Status := s }),
    xml.structElement (ascii "artist-credit") Release_ArtistCredit.tinfo (fun v => v.ArtistCredit)
      (fun a v => { v with ArtistCredit := a }),
    BrainzTime.element (ascii "date") (fun v => v.Date) (fun t v => { v with Date := t }),
    xml.stringElement (ascii "country") (fun s v => { v with CountryCode := s }),
    xml.stringElement (ascii "barcode") (fun s v => { v with Barcode := s }),
    xml.stringElement (ascii "asin") (fun s v => { v with Asin := s }),
    xml.sliceElement [ascii "label-info-list"] (ascii "label-info") LabelInfo.tinfo LabelInfo.zero
      (fun v => v.LabelInfos) (fun l v => { v with LabelInfos := l }),
    xml.sliceElement [ascii "medium-list"] (ascii "medium") Medium.tinfo Medium.zero
      (fun v => v.Media) (fun l v => { v with Media := l }) ]

/-- The field `ReleaseList` of `releaseSearchRequest`, an anonymous struct. -/
structure releaseSearchRequest_ReleaseList where
  Count : Int
  Offset : Int
  Releases : List Release
  deriving DecidableEq, Repr

def releaseSearchRequest_ReleaseList.zero : releaseSearchRequest_ReleaseList :=
  { Count := 0, Offset := 0, Releases := [] }

/-- The tags `xml:"count,attr"`, `xml:"offset,attr"`, `xml:"release"`. -/
def releaseSearchRequest_ReleaseList.tinfo : List (xml.Field releaseSearchRequest_ReleaseList) :=
  [ xml.intAttr [] (ascii "count") (fun n v => { v with Count := n }),
    xml.intAttr [] (ascii "offset") (fun n v => { v with Offset := n }),
    xml.sliceElement [] (ascii "release") Release.tinfo Release.zero (fun v => v.Releases)
      (fun l v => { v with Releases := l }) ]

/-- The type `releaseSearchRequest` of src/structs.go. -/
structure releaseSearchRequest where
  ReleaseList : releaseSearchRequest_ReleaseList
  deriving DecidableEq, Repr

def releaseSearchRequest.zero : releaseSearchRequest :=
  { ReleaseList := releaseSearchRequest_ReleaseList.zero }

/-- The tag `xml:"release-list"`. -/
def releaseSearchRequest.tinfo : List (xml.Field releaseSearchRequest) :=
  [ xml.structElement (ascii "release-list") releaseSearchRequest_ReleaseList.tinfo
      (fun v => v.ReleaseList) (fun l v => { v with ReleaseList := l }) ]

/-! ## src/annotation.go: the types and their `xml` tags -/

/-- The type `Annotation` of src/annotation.go (`Typ` is the field `Type`). -/
structure Annotation where
  Typ : GoString
  Entity : GoString
  Name : GoString
  Text : GoString
  deriving DecidableEq, Repr

/-- Modelled from the spec: the type `WS2ListResponse`, which src/annotation.go
embeds and no source file declares. The spec's list envelope carries `count`
(total matches on the server) and `offset` (starting index of the page), read
from the attributes `count` and `offset` of the list element. -/
structure WS2ListResponse where
  Count : Int
  Offset : Int
  deriving DecidableEq, Repr

/-- The element type of the field `Annotations`, an anonymous struct that
embeds `Annotation` and adds `Score`. -/
structure annotationListResult_Elem where
  Annotation : Annotation
  Score : Int
  deriving DecidableEq, Repr

def annotationListResult_Elem.zero : annotationListResult_Elem :=
  { Annotation := { Typ := [], Entity := [], Name := [], Text := [] }, Score := 0 }

/-- The fields of the embedded `Annotation` come first, with their tags
`type,attr`, `entity`, `name`, `text`; then `Score`, tagged
`http://musicbrainz.org/ns/ext#-2.0 score,attr`. -/
def annotationListResult_Elem.tinfo : List (xml.Field annotationListResult_Elem) :=
  [ xml.stringAttr (ascii "type")
      (fun s v => { v with Annotation := { annotationListResult_Elem.Annotation v with Typ := s } }),
    xml.stringElement (ascii "entity")
      (fun s v => { v with Annotation := { annotationListResult_Elem.Annotation v with Entity := s } }),
    xml.stringElement (ascii "name")
      (fun s v => { v with Annotation := { annotationListResult_Elem.Annotation v with Name := s } }),
    xml.stringElement (ascii "text")
      (fun s v => { v with Annotation := { annotationListResult_Elem.Annotation v with Text := s } }),
    xml.intAttr (ascii "http://musicbrainz.org/ns/ext#-2.0") (ascii "score")
      (fun n v => { v with Score := n }) ]

/-- The field `AnnotationList` of `annotationListResult`, an anonymous struct
that embeds `WS2ListResponse`. -/
structure annotationListResult_AnnotationList where
  WS2ListResponse : WS2ListResponse
  Annotations : List annotationListResult_Elem
  deriving DecidableEq, Repr

def annotationListResult_AnnotationList.zero : annotationListResult_AnnotationList :=
  { WS2ListResponse := { Count := 0, Offset := 0 }, Annotations := [] }

/-- The fields of the embedded `WS2ListResponse` (attributes `count` and
`offset`), then the tag `xml:"annotation"`. -/
def annotationListResult_AnnotationList.tinfo :
    List (xml.Field annotationListResult_AnnotationList) :=
  [ xml.intAttr [] (ascii "count")
      (fun n v => { v with WS2ListResponse := { v.WS2ListResponse with Count := n } }),
    xml.intAttr [] (ascii "offset")
      (fun n v => { v with WS2ListResponse := { v.WS2ListResponse with Offset := n } }),
    xml.sliceElement [] (ascii "annotation") annotationListResult_Elem.tinfo
      annotationListResult_Elem.zero (fun v => v.Annotations)
      (fun l v => { v with Annotations := l }) ]

/-- The type `annotationListResult` of src/annotation.go. -/
structure annotationListResult where
  AnnotationList : annotationListResult_AnnotationList
  deriving DecidableEq, Repr

def annotationListResult.zero : annotationListResult :=
  { AnnotationList := annotationListResult_AnnotationList.zero }

/-- The tag `xml:"annotation-list"`. -/
def annotationListResult.tinfo : List (xml.Field annotationListResult) :=
  [ xml.structElement (ascii "annotation-list") annotationListResult_AnnotationList.tinfo
      (fun v => v.AnnotationList) (fun l v => { v with AnnotationList := l }) ]

/-! ## Vocabulary of the statements: calendar dates and their texts -/

/-- The byte `c` is an ASCII decimal digit. -/
def digitByte (c : Nat) : Prop := 48 ≤ c ∧ c ≤ 57

instance (c : Nat) : Decidable (digitByte c) := inferInstanceAs (Decidable (48 ≤ c ∧ c ≤ 57))

/-- Leap years of the Gregorian calendar. -/
def leapYear (Y : Nat) : Bool := Y % 4 = 0 ∧ (Y % 100 ≠ 0 ∨ Y % 400 = 0)

/-- Number of days of month `M` (1..12) of a leap or non-leap year; 0 for any
other `M`. -/
def monthLength (leap : Bool) (M : Nat) : Nat :=
  match M with
  | 1 => 31
  | 2 => if leap then 29 else 28
  | 3 => 31
  | 4 => 30
  | 5 => 31
  | 6 => 30
  | 7 => 31
  | 8 => 31
  | 9 => 30
  | 10 => 31
  | 11 => 30
  | 12 => 31
  | _ => 0

/-- Day `D` of month `M` of year `Y` exists in the calendar. -/
def validDate (Y M D : Nat) : Prop := 1 ≤ D ∧ D ≤ monthLength (leapYear Y) M

instance (Y M D : Nat) : Decidable (validDate Y M D) :=
  inferInstanceAs (Decidable (1 ≤ D ∧ D ≤ monthLength (leapYear Y) M))

/-- Number of days of the year before day `D` of month `M`. -/
def dayOfYear (leap : Bool) (M D : Nat) : Nat :=
  (time.daysBefore ((M : Int) - 1)).toNat + (if leap && M ≥ 3 then 1 else 0) + (D - 1)

/-- Two decimal digits, `MM` or `DD`. -/
def dec2 (n : Nat) : GoString := [48 + n / 10, 48 + n % 10]

/-- Four decimal digits, `YYYY`. -/
def dec4 (n : Nat) : GoString := [48 + n / 1000, 48 + n / 100 % 10, 48 + n / 10 % 10, 48 + n % 10]

/-- The text `YYYY`. -/
def yearText (Y : Nat) : GoString := dec4 Y

/-- The text `YYYY-MM`. -/
def yearMonthText (Y M : Nat) : GoString := dec4 Y ++ 45 :: dec2 M

/-- The text `YYYY-MM-DD`. -/
def dateText (Y M D : Nat) : GoString := dec4 Y ++ 45 :: (dec2 M ++ 45 :: dec2 D)

/-- The text `v` is the text of a calendar date at one of the three
precisions: a year, a year and a month 01..12, or a year, a month 01..12 and a
day of that month. -/
def isDateText (v : GoString) : Prop :=
  (∃ Y, Y < 10000 ∧ v = yearText Y) ∨
  (∃ Y M, Y < 10000 ∧ 1 ≤ M ∧ M ≤ 12 ∧ v = yearMonthText Y M) ∨
  (∃ Y M D, Y < 10000 ∧ 1 ≤ M ∧ M ≤ 12 ∧ validDate Y M D ∧ v = dateText Y M D)

/-- The layout that `UnmarshalXML` selects for a text with `n` hyphens
(`n` is 0, 1 or 2). -/
def layoutFor (n : Nat) : time.Layout :=
  match n with
  | 0 => time.layoutYear
  | 1 => time.layoutYearMonth
  | _ => time.layoutDate

/-! ## Vocabulary of the statements: documents -/

/-- An element without a name space. -/
def xml.el (name : GoString) (attrs : List (GoString × GoString)) (children : List xml.Node) :
    xml.Node :=
  xml.Node.element
    { Name := { Space := [], Local := name },
      Attr := attrs.map (fun a => { Name := { Space := [], Local := a.1 }, Value := a.2 }) }
    children

/-- An element that holds character data only. -/
def xml.textEl (name : GoString) (text : GoString) : xml.Node :=
  xml.el name [] [xml.Node.charData text]

/-- The node is an element. -/
def xml.Node.isElement : xml.Node → Bool
  | xml.Node.element _ _ => true
  | _ => false

/-- The elements with the local name `name` among `nodes`, in document order:
the start token and the children of each. -/
def xml.elementsNamed (name : GoString) : List xml.Node → List (xml.StartElement × List xml.Node)
  | [] => []
  | xml.Node.element start children :: rest =>
    if start.Name.Local = name then (start, children) :: xml.elementsNamed name rest
    else xml.elementsNamed name rest
  | _ :: rest => xml.elementsNamed name rest

/-- The decimal digits of `u`, most significant first, in front of `acc`;
`u + 1` rounds always suffice. -/
def natTextLoop : Nat → Nat → GoString → GoString
  | 0, _, acc => acc
  | fuel + 1, u, acc =>
    if u ≥ 10 then natTextLoop fuel (u / 10) ((48 + u % 10) :: acc)
    else (48 + u) :: acc

/-- The decimal text of a natural number. -/
def natText (u : Nat) : GoString := natTextLoop (u + 1) u []

/-- The decimal text of an integer, as an attribute reports it. -/
def intText (n : Int) : GoString :=
  if n < 0 then 45 :: natText (-n).toNat else natText n.toNat

/-- A document with a list container inside a root element, as the service
sends it (`<metadata><artist-list count=".." offset="..">..</artist-list></metadata>`):
the tokens `prolog` before the root element, the start token `root` of the root
element (any name, any attributes), and among the children of the root the
container, in the name space `space`, with its attributes `attrs` and its
children `children`; `before` and `after` are the other children of the root
and `epilog` the tokens after the root element. -/
structure ListDocument where
  prolog : List xml.Node
  root : xml.StartElement
  before : List xml.Node
  space : GoString
  attrs : List xml.Attr
  children : List xml.Node
  after : List xml.Node
  epilog : List xml.Node

/-- The top-level tokens of the document whose container is named `listName`:
the container is a child of the root element, not the root element itself. -/
def ListDocument.nodes (d : ListDocument) (listName : GoString) : List xml.Node :=
  d.prolog ++
    xml.Node.element d.root
      (d.before ++
        xml.Node.element { Name := { Space := d.space, Local := listName }, Attr := d.attrs }
          d.children :: d.after) :: d.epilog

/-- The document is a list document for the container name `listName` that
reports `count=C` and `offset=O`:
* no element comes before the root element (it is the root);
* the container is the only child of the root with the local name `listName`;
* the container has an attribute with the local name `count`, and every
  attribute of the container with the local name `count`, in whatever name
  space, has the decimal text of `C` as its value (a minus sign when negative;
  no plus sign, leading zero or blank);
* the same for `offset` and `O`;
* `C` and `O` are 64-bit integers. -/
def ListDocument.reports (d : ListDocument) (listName : GoString) (C O : Int) : Prop :=
  (∀ n ∈ d.prolog, n.isElement = false) ∧
  (xml.elementsNamed listName d.before).length = 0 ∧
  (xml.elementsNamed listName d.after).length = 0 ∧
  (∃ a ∈ d.attrs, a.Name.Local = ascii "count") ∧
  (∀ a ∈ d.attrs, a.Name.Local = ascii "count" → a.Value = intText C) ∧
  (∃ a ∈ d.attrs, a.Name.Local = ascii "offset") ∧
  (∀ a ∈ d.attrs, a.Name.Local = ascii "offset" → a.Value = intText O) ∧
  (-9223372036854775808 ≤ C ∧ C < 9223372036854775808) ∧
  (-9223372036854775808 ≤ O ∧ O < 9223372036854775808)

instance (d : ListDocument) (listName : GoString) (C O : Int) :
    Decidable (d.reports listName C O) := by
  unfold ListDocument.reports
  infer_instance

/-- A list document with `count="5"`, `offset="2"` and three `artist` children,
one of them with a life span. -/
def exampleArtists : ListDocument :=
  { prolog := [xml.Node.other]
    root := { Name := { Space := [], Local := ascii "metadata" }, Attr := [] }
    before := [xml.Node.charData (ascii " ")]
    space := []
    attrs := [ { Name := { Space := [], Local := ascii "count" }, Value := ascii "5" },
               { Name := { Space := [], Local := ascii "offset" }, Value := ascii "2" } ]
    children :=
      [ xml.el (ascii "artist") [(ascii "id", ascii "a"), (ascii "type", ascii "Group")]
          [ xml.textEl (ascii "name") (ascii "Gopher And Friends"),
            xml.el (ascii "life-span") []
              [ xml.textEl (ascii "begin") (ascii "2007-09-21"),
                xml.textEl (ascii "ended") (ascii "false") ],
            xml.el (ascii "alias-list") []
              [ xml.el (ascii "alias") [(ascii "sort-name", ascii "0Mr Gopher")]
                  [xml.Node.charData (ascii "Mr Gopher")] ] ],
        xml.Node.charData (ascii " "),
        xml.el (ascii "artist") [(ascii "id", ascii "b")] [],
        xml.el (ascii "artist") [(ascii "id", ascii "c")] [] ]
    after := []
    epilog := [] }

/-- A list document with `count="1"`, `offset="0"` and one `artist` child whose
life span begins at the text `unknown`. -/
def exampleUnknownDate : ListDocument :=
  { prolog := []
    root := { Name := { Space := [], Local := ascii "metadata" }, Attr := [] }
    before := []
    space := []
    attrs := [ { Name := { Space := [], Local := ascii "count" }, Value := ascii "1" },
               { Name := { Space := [], Local := ascii "offset" }, Value := ascii "0" } ]
    children :=
      [ xml.el (ascii "artist") [(ascii "id", ascii "a")]
          [ xml.el (ascii "life-span") [] [ xml.textEl (ascii "begin") (ascii "unknown") ] ] ]
    after := []
    epilog := [] }

/-- The top-level tokens of the document in which the container named
`listName`, with the attributes and children of `d`, is itself the root
element: no element stands around it. -/
def ListDocument.bare (d : ListDocument) (listName : GoString) : List xml.Node :=
  d.prolog ++
    xml.Node.element { Name := { Space := d.space, Local := listName }, Attr := d.attrs }
      d.children :: d.epilog

/-- A list document whose container has the attributes `count="1"`,
`offset="0"` and, in the name space `urn:x`, a second attribute with the local
name `count` and the value `9` (`x:count="9"`); no children. -/
def exampleForeignCount : ListDocument :=
  { prolog := []
    root := { Name := { Space := [], Local := ascii "metadata" }, Attr := [] }
    before := []
    space := []
    attrs := [ { Name := { Space := [], Local := ascii "count" }, Value := ascii "1" },
               { Name := { Space := [], Local := ascii "offset" }, Value := ascii "0" },
               { Name := { Space := ascii "urn:x", Local := ascii "count" }, Value := ascii "9" } ]
    children := []
    after := []
    epilog := [] }

/-! ## Lemmas: machine integers -/

theorem toInt64_small (x : Int) (h1 : -9223372036854775808 ≤ x) (h2 : x < 9223372036854775808) :
    toInt64 x = x := by
  unfold toInt64; omega

theorem toUint64_ofNat (n : Nat) (h : n < 18446744073709551616) : toUint64 (n : Int) = n := by
  unfold toUint64; omega

theorem mul_add_div_lt (b a s : Nat) (hs : s < b) : (b * a + s) / b = a := by
  have hb : 0 < b := by omega
  rw [Nat.mul_add_div hb, Nat.div_eq_of_lt hs, Nat.add_zero]

namespace time

/-! ## Lemmas: the calendar arithmetic of `Date` and `absDate` -/

theorem absoluteToInternal_eq : absoluteToInternal = -9223371966579724800 := by decide

theorem unixToInternal_eq : unixToInternal = 62135596800 := by decide

theorem secondsPerDay_eq : secondsPerDay = 86400 := by decide

theorem tmod_ofNat (Y n : Nat) : (Y : Int).tmod (n : Int) = ((Y % n : Nat) : Int) := by
  rw [Int.tmod_eq_emod (by omega) (by omega)]
  omega

theorem isLeap_ofNat (Y : Nat) : isLeap (Y : Int) = leapYear Y := by
  unfold isLeap leapYear
  have e4 := tmod_ofNat Y 4
  have e100 := tmod_ofNat Y 100
  have e400 := tmod_ofNat Y 400
  simp only [Nat.cast_ofNat] at e4 e100 e400
  rw [e4, e100, e400]
  generalize Y % 4 = a
  generalize Y % 100 = b
  generalize Y % 400 = c
  cases a <;> cases b <;> cases c <;> simp <;> omega

theorem norm_inRange (hi lo base : Int) (h0 : 0 ≤ lo) (h1 : lo < base) :
    norm hi lo base = (hi, lo) := by
  unfold norm
  simp only []
  rw [if_neg (by omega), if_neg (by omega), if_neg (by omega)]

theorem daysSinceEpoch_ofNat (Y : Nat) (h : Y < 10000) :
    daysSinceEpoch Y =
      146097 * ((Y + 292277022399) / 400) + 36524 * ((Y + 292277022399) % 400 / 100)
        + 1461 * ((Y + 292277022399) % 100 / 4) + 365 * ((Y + 292277022399) % 4) := by
  unfold daysSinceEpoch
  have e : toUint64 (toInt64 (Y : Int) - absoluteZeroYear) = Y + 292277022399 := by
    rw [toInt64_small _ (by omega) (by omega)]
    have : (Y : Int) - absoluteZeroYear = ((Y + 292277022399 : Nat) : Int) := by
      unfold absoluteZeroYear; omega
    rw [this, toUint64_ofNat _ (by omega)]
  rw [e]
  simp only [daysPer400Years, daysPer100Years, daysPer4Years]
  omega

theorem daysSinceEpoch_bounds (Y : Nat) (h : Y < 10000) :
    106751990353566 ≤ daysSinceEpoch Y ∧ daysSinceEpoch Y < 106751994005992 := by
  rw [daysSinceEpoch_ofNat Y h]
  omega

theorem absYearDay_split (q c f e yd : Nat) (hc : c < 4) (hf : f < 25) (he : e < 4)
    (hleap : yd < 365 ∨ (yd = 365 ∧ e = 3 ∧ (f < 24 ∨ c = 3))) :
    absYearDay ((146097 * q + 36524 * c + 1461 * f + 365 * e + yd) * 86400)
      = (400 * q + 100 * c + 4 * f + e, yd) := by
  have h0 : (146097 * q + 36524 * c + 1461 * f + 365 * e + yd) * 86400 / 86400
      = 146097 * q + 36524 * c + 1461 * f + 365 * e + yd := by omega
  have h1 : (146097 * q + 36524 * c + 1461 * f + 365 * e + yd) / 146097 = q := by
    have := mul_add_div_lt 146097 q (36524 * c + 1461 * f + 365 * e + yd) (by omega)
    rw [← this]; congr 1; omega
  have hd1 : 146097 * q + 36524 * c + 1461 * f + 365 * e + yd - 146097 * q
      = 36524 * c + 1461 * f + 365 * e + yd := by omega
  have h2 : (36524 * c + 1461 * f + 365 * e + yd) / 36524
      - (36524 * c + 1461 * f + 365 * e + yd) / 36524 / 4 = c := by
    by_cases h : 1461 * f + 365 * e + yd < 36524
    · have := mul_add_div_lt 36524 c (1461 * f + 365 * e + yd) h
      have e1 : (36524 * c + 1461 * f + 365 * e + yd) / 36524 = c := by
        rw [← this]; congr 1; omega
      rw [e1]; omega
    · have hh : 1461 * f + 365 * e + yd = 36524 := by omega
      have hc3 : c = 3 := by omega
      have := mul_add_div_lt 36524 (c + 1) 0 (by omega)
      have e1 : (36524 * c + 1461 * f + 365 * e + yd) / 36524 = c + 1 := by
        rw [← this]; congr 1; omega
      rw [e1]; omega
  have hd2 : 36524 * c + 1461 * f + 365 * e + yd - 36524 * c = 1461 * f + 365 * e + yd := by
    omega
  have h3 : (1461 * f + 365 * e + yd) / 1461 = f := by
    have := mul_add_div_lt 1461 f (365 * e + yd) (by omega)
    rw [← this]; congr 1; omega
  have hd3 : 1461 * f + 365 * e + yd - 1461 * f = 365 * e + yd := by omega
  have h4 : (365 * e + yd) / 365 - (365 * e + yd) / 365 / 4 = e := by
    by_cases h : yd < 365
    · rw [mul_add_div_lt 365 e yd h]; omega
    · have hh : yd = 365 := by omega
      have := mul_add_div_lt 365 (e + 1) 0 (by omega)
      have e1 : (365 * e + yd) / 365 = e + 1 := by
        rw [← this]; congr 1; omega
      rw [e1]; omega
  have hd4 : 365 * e + yd - 365 * e = yd := by omega
  unfold absYearDay
  simp only [daysPer400Years, daysPer100Years, daysPer4Years]
  norm_num only
  rw [h0, h1, hd1, h2, hd2, h3, hd3, h4, hd4]

theorem absYearDay_days (Y yd : Nat) (hY : Y < 10000)
    (hyd : yd < 365 ∨ (yd = 365 ∧ leapYear Y = true)) :
    absYearDay ((daysSinceEpoch Y + yd) * 86400) = (Y + 292277022399, yd) := by
  rw [daysSinceEpoch_ofNat Y hY]
  have hl : yd < 365 ∨ (yd = 365 ∧ (Y + 292277022399) % 4 = 3 ∧
      ((Y + 292277022399) % 100 / 4 < 24 ∨ (Y + 292277022399) % 400 / 100 = 3)) := by
    rcases hyd with h | ⟨h, hl⟩
    · exact Or.inl h
    · right
      unfold leapYear at hl
      simp only [decide_eq_true_eq] at hl
      omega
  rw [absYearDay_split _ _ _ _ yd (by omega) (by omega) (by omega) hl]
  congr 1
  omega

set_option maxRecDepth 100000 in
theorem absMonthDay_table : ∀ leap : Bool, ∀ M : Nat, M < 13 → ∀ D : Nat, D < 32 →
    (1 ≤ M ∧ 1 ≤ D ∧ D ≤ monthLength leap M) →
    absMonthDay leap (dayOfYear leap M D : Nat) = ((M : Int), (D : Int)) := by
  intro leap
  cases leap <;> decide

set_option maxRecDepth 100000 in
theorem dayOfYear_table : ∀ leap : Bool, ∀ M : Nat, M < 13 → ∀ D : Nat, D < 32 →
    (1 ≤ M ∧ 1 ≤ D ∧ D ≤ monthLength leap M) →
    (dayOfYear leap M D < 365 ∨ (dayOfYear leap M D = 365 ∧ leap = true)) := by
  intro leap
  cases leap <;> decide

theorem daysBefore_table : ∀ M : Nat, M < 13 → 1 ≤ M →
    (toUint64 (daysBefore ((M : Int) - 1)) = (daysBefore ((M : Int) - 1)).toNat ∧
      (daysBefore ((M : Int) - 1)).toNat ≤ 334) := by
  decide

theorem daysIn_table : ∀ leap : Bool, ∀ M : Nat, M < 13 → 1 ≤ M →
    (if ((M : Int) == 2 && leap) = true then 29 else daysBefore M - daysBefore ((M : Int) - 1))
      = ((monthLength leap M : Nat) : Int) := by
  intro leap
  cases leap <;> decide

theorem daysIn_ofNat (Y M : Nat) (h1 : 1 ≤ M) (h2 : M ≤ 12) :
    daysIn M Y = ((monthLength (leapYear Y) M : Nat) : Int) := by
  unfold daysIn
  rw [isLeap_ofNat]
  exact daysIn_table (leapYear Y) M (by omega) h1

theorem monthLength_le (leap : Bool) (M : Nat) : monthLength leap M ≤ 31 := by
  unfold monthLength
  split <;> try omega
  split <;> omega

theorem monthLength_pos (leap : Bool) (M : Nat) (h : 1 ≤ monthLength leap M) :
    1 ≤ M ∧ M ≤ 12 := by
  unfold monthLength at h
  split at h <;> omega

theorem ext_of_abs (X : Nat) (h1 : 9223371966579724800 ≤ X + 4611686018427387904)
    (h2 : X < 9223371966579724800 + 4611686018427387904) :
    toInt64 (toInt64 (toInt64 (X : Int) + (absoluteToInternal + internalToUnix)) + unixToInternal)
      = (X : Int) - 9223371966579724800 := by
  unfold internalToUnix
  rw [absoluteToInternal_eq, unixToInternal_eq]
  unfold toInt64
  omega

theorem abs_of_days (N : Nat) (h : N < 200000000000000) :
    toUint64 (((toUint64 ((N : Int) * secondsPerDay) : Nat) : Int)
      + ((toUint64 (0 * secondsPerHour + 0 * secondsPerMinute + 0) : Nat) : Int)) = N * 86400 := by
  have e0 : toUint64 (0 * secondsPerHour + 0 * secondsPerMinute + 0) = 0 := by
    unfold toUint64; omega
  have e1 : (N : Int) * 86400 = ((N * 86400 : Nat) : Int) := by push_cast; rfl
  have e2 : ((N * 86400 : Nat) : Int) + ((0 : Nat) : Int) = ((N * 86400 : Nat) : Int) := by simp
  rw [e0, secondsPerDay_eq, e1, toUint64_ofNat _ (by omega), e2, toUint64_ofNat _ (by omega)]

/-- The value of `Date` at a calendar date of the years 0..9999, at midnight. -/
theorem Date_ofNat (Y M D : Nat) (hY : Y < 10000) (hM1 : 1 ≤ M) (hM : M ≤ 12) (hD1 : 1 ≤ D)
    (hD : D ≤ monthLength (leapYear Y) M) :
    Date Y M D 0 0 0 0 =
      { wall := 0
        ext := (((daysSinceEpoch Y + dayOfYear (leapYear Y) M D) * 86400 : Nat) : Int)
                - 9223371966579724800
        loc := none } := by
  have hD31 : D < 32 := by
    have := monthLength_le (leapYear Y) M
    omega
  obtain ⟨hdb, hdb2⟩ := daysBefore_table M (by omega) hM1
  have hb := daysSinceEpoch_bounds Y hY
  unfold Date
  simp only []
  rw [norm_inRange _ _ 12 (by omega) (by omega), norm_inRange 0 0 _ (by omega) (by omega)]
  simp only []
  rw [norm_inRange 0 0 _ (by omega) (by omega)]
  simp only []
  rw [norm_inRange 0 0 _ (by omega) (by omega)]
  simp only []
  rw [norm_inRange (D : Int) 0 24 (by omega) (by omega)]
  simp only []
  rw [isLeap_ofNat]
  have e1 : (M : Int) - 1 + 1 - 1 = M - 1 := by omega
  have e2 : decide ((M : Int) - 1 + 1 ≥ 3) = decide (M ≥ 3) := by
    apply decide_eq_decide.mpr; omega
  rw [e1, e2, hdb]
  unfold dayOfYear
  generalize (daysBefore ((M : Int) - 1)).toNat = db at *
  generalize daysSinceEpoch Y = a at *
  have e3 : toUint64 ((D : Int) - 1) = D - 1 := by unfold toUint64; omega
  rw [e3]
  have e4 : toUint64 0 = 0 := by decide
  rw [e4]
  refine congrArg (fun e => Time.mk 0 e none) ?_
  have key : ∀ N : Nat, 106751990353566 ≤ N → N < 106751994006400 →
      toInt64 (toInt64 (toInt64 ((toUint64 (((toUint64 ((N : Int) * secondsPerDay) : Nat) : Int)
      + ((toUint64 (0 * secondsPerHour + 0 * secondsPerMinute + 0) : Nat) : Int)) : Nat) : Int)
         + (absoluteToInternal + internalToUnix)) + unixToInternal)
        = ((N * 86400 : Nat) : Int) - 9223371966579724800 := by
    intro N h1 h2
    rw [abs_of_days N (by omega), ext_of_abs _ (by omega) (by omega)]
  have e5 : ∀ k : Nat, k < 106751994006400 →
      toUint64 ((k : Int) + ((D - 1 : Nat) : Int)) = k + (D - 1) := by
    intro k hk
    unfold toUint64; omega
  by_cases hc : (leapYear Y && decide (M ≥ 3)) = true
  · rw [if_pos hc, if_pos hc, e5 _ (by omega), key _ (by omega) (by omega)]
    omega
  · rw [if_neg hc, if_neg hc, e5 _ (by omega), key _ (by omega) (by omega)]
    omega

theorem locabs_of_abs (X : Nat) (h1 : 9223371966579724800 ≤ X + 4611686018427387904)
    (h2 : X < 9223371966579724800 + 4611686018427387904) :
    Time.locabs { wall := 0, ext := (X : Int) - 9223371966579724800, loc := none } = X := by
  unfold Time.locabs Time.unixSec Time.sec
  simp only []
  rw [if_neg (by omega)]
  unfold internalToUnix internalToAbsolute
  rw [absoluteToInternal_eq, unixToInternal_eq]
  unfold toInt64 toUint64
  omega

/-- The function `absDate` recovers the calendar date that `Date` was given. -/
theorem absDate_Date (Y M D : Nat) (hY : Y < 10000) (hM1 : 1 ≤ M) (hM : M ≤ 12) (hD1 : 1 ≤ D)
    (hD : D ≤ monthLength (leapYear Y) M) :
    absDate (Date Y M D 0 0 0 0).locabs = ((Y : Int), (M : Int), (D : Int)) := by
  have hD31 : D < 32 := by
    have := monthLength_le (leapYear Y) M
    omega
  have hb := daysSinceEpoch_bounds Y hY
  have hyd := dayOfYear_table (leapYear Y) M (by omega) D hD31 ⟨hM1, hD1, hD⟩
  have hmd := absMonthDay_table (leapYear Y) M (by omega) D hD31 ⟨hM1, hD1, hD⟩
  have hyd2 : dayOfYear (leapYear Y) M D ≤ 365 := by omega
  rw [Date_ofNat Y M D hY hM1 hM hD1 hD, locabs_of_abs _ (by omega) (by omega)]
  unfold absDate
  rw [absYearDay_days Y _ hY hyd]
  simp only []
  have ey : toInt64 (toInt64 ((Y + 292277022399 : Nat) : Int) + absoluteZeroYear) = (Y : Int) := by
    unfold absoluteZeroYear
    have e1 : toInt64 ((Y + 292277022399 : Nat) : Int) = ((Y + 292277022399 : Nat) : Int) :=
      toInt64_small _ (by omega) (by omega)
    rw [e1, toInt64_small _ (by omega) (by omega)]
    omega
  rw [ey, isLeap_ofNat, hmd]

end time

namespace time

/-! ## Lemmas: the pieces of `Parse` -/

theorem leadingInt_digit (c : Nat) (s : GoString) (x : Nat) (hc : digitByte c)
    (hx : x ≤ 1000000) : leadingInt (c :: s) x = leadingInt s (x * 10 + c - 48) := by
  unfold digitByte at hc
  rw [leadingInt]
  have h1 : (decide (c < 48) || decide (c > 57)) = false := by simp; omega
  rw [h1]
  simp only [Bool.false_eq_true, if_false]
  rw [if_neg (by omega), if_neg (by omega)]

theorem leadingInt_nondigit (c : Nat) (s : GoString) (x : Nat) (hc : ¬ digitByte c) :
    leadingInt (c :: s) x = some (x, c :: s) := by
  unfold digitByte at hc
  rw [leadingInt]
  have h1 : (decide (c < 48) || decide (c > 57)) = true := by simp; omega
  rw [h1]
  simp only [if_true]

theorem atoi_four (c1 c2 c3 c4 : Nat) (h1 : digitByte c1) :
    atoi [c1, c2, c3, c4] =
      if digitByte c2 ∧ digitByte c3 ∧ digitByte c4 then
        some (((c1 - 48) * 1000 + (c2 - 48) * 100 + (c3 - 48) * 10 + (c4 - 48) : Nat) : Int)
      else none := by
  have hs : c1 ≠ 45 ∧ c1 ≠ 43 := by unfold digitByte at h1; omega
  unfold atoi
  simp only [hs.1, hs.2, or_self, decide_False, Bool.or_self, Bool.false_eq_true, if_false,
    beq_iff_eq]
  rw [leadingInt_digit c1 _ 0 h1 (by omega)]
  by_cases h2 : digitByte c2
  · rw [leadingInt_digit c2 _ _ h2 (by unfold digitByte at h1; omega)]
    by_cases h3 : digitByte c3
    · rw [leadingInt_digit c3 _ _ h3 (by unfold digitByte at h1 h2; omega)]
      by_cases h4 : digitByte c4
      · rw [leadingInt_digit c4 _ _ h4 (by unfold digitByte at h1 h2 h3; omega)]
        simp only [leadingInt, h2, h3, h4, and_self, if_true, List.length_nil, gt_iff_lt,
          lt_self_iff_false, if_false]
        unfold digitByte at h1 h2 h3 h4
        have e : (((0 * 10 + c1 - 48) * 10 + c2 - 48) * 10 + c3 - 48) * 10 + c4 - 48
            = (c1 - 48) * 1000 + (c2 - 48) * 100 + (c3 - 48) * 10 + (c4 - 48) := by omega
        rw [e, toInt64_small _ (by omega) (by omega)]
      · rw [leadingInt_nondigit c4 _ _ h4]
        simp [h4]
    · rw [leadingInt_nondigit c3 _ _ h3]
      simp [h3]
  · rw [leadingInt_nondigit c2 _ _ h2]
    simp [h2]

theorem getnum_fixed (s : GoString) :
    getnum s true =
      match s with
      | c1 :: c2 :: rest =>
        if digitByte c1 ∧ digitByte c2 then
          some ((((c1 - 48) * 10 + (c2 - 48) : Nat) : Int), rest)
        else none
      | _ => none := by
  unfold getnum isDigit digitByte
  match s with
  | [] => simp
  | [c1] => simp
  | c1 :: c2 :: rest =>
    by_cases h1 : 48 ≤ c1 ∧ c1 ≤ 57 <;> by_cases h2 : 48 ≤ c2 ∧ c2 ≤ 57 <;> simp [h1, h2]

theorem skip_nil (value : GoString) : skip value [] = some value := by
  unfold skip skipLoop
  cases value <;> rfl

theorem skip_hyphen (value : GoString) :
    skip value [45] = match value with
      | c :: rest => if c = 45 then some rest else none
      | [] => none := by
  unfold skip
  match value with
  | [] => simp [skipLoop]
  | c :: rest =>
    by_cases h : c = 45
    · subst h; simp [skipLoop]
    · simp [skipLoop, h]

theorem parseLoop_year (layout : Layout) (value : GoString) (f : Fields) :
    parseLoop (([], Std.stdLongYear) :: layout) value f =
      match value with
      | c1 :: c2 :: c3 :: c4 :: rest =>
        if digitByte c1 ∧ digitByte c2 ∧ digitByte c3 ∧ digitByte c4 then
          parseLoop layout rest
            { f with year := (((c1 - 48) * 1000 + (c2 - 48) * 100 + (c3 - 48) * 10 + (c4 - 48) : Nat) : Int) }
        else .error ParseError.bad
      | _ => .error ParseError.bad := by
  rw [parseLoop, skip_nil]
  match value with
  | [] => simp [isDigit]
  | [c1] => simp [isDigit]
  | [c1, c2] => simp [isDigit]
  | [c1, c2, c3] => simp [isDigit]
  | c1 :: c2 :: c3 :: c4 :: rest =>
    by_cases h1 : digitByte c1
    · have hd : isDigit (c1 :: c2 :: c3 :: c4 :: rest) 0 = true := by
        unfold digitByte at h1; simp [isDigit, h1]
      simp only [List.length_cons, hd, List.take_succ_cons, List.take_zero, List.drop_succ_cons,
        List.drop_zero]
      rw [atoi_four c1 c2 c3 c4 h1]
      by_cases h : digitByte c2 ∧ digitByte c3 ∧ digitByte c4
      · simp [h, h1]
      · simp [h, h1]
    · have hd : isDigit (c1 :: c2 :: c3 :: c4 :: rest) 0 = false := by
        unfold digitByte at h1; simp [isDigit]; omega
      simp [hd, h1]

theorem parseLoop_month (layout : Layout) (value : GoString) (f : Fields) :
    parseLoop (([45], Std.stdZeroMonth) :: layout) value f =
      match value with
      | c :: c1 :: c2 :: rest =>
        if c = 45 ∧ digitByte c1 ∧ digitByte c2 then
          if (c1 - 48) * 10 + (c2 - 48) = 0 ∨ 12 < (c1 - 48) * 10 + (c2 - 48) then
            .error ParseError.monthOutOfRange
          else parseLoop layout rest { f with month := (((c1 - 48) * 10 + (c2 - 48) : Nat) : Int) }
        else .error ParseError.bad
      | _ => .error ParseError.bad := by
  rw [parseLoop, skip_hyphen]
  match value with
  | [] => simp
  | [c] => by_cases h : c = 45 <;> simp [h, getnum_fixed]
  | [c, c1] => by_cases h : c = 45 <;> simp [h, getnum_fixed]
  | c :: c1 :: c2 :: rest =>
    by_cases h : c = 45
    · by_cases hd : digitByte c1 ∧ digitByte c2
      · simp only [h, if_true, getnum_fixed, hd, and_self]
        by_cases hm : (c1 - 48) * 10 + (c2 - 48) = 0 ∨ 12 < (c1 - 48) * 10 + (c2 - 48)
        · have : (decide ((((c1 - 48) * 10 + (c2 - 48) : Nat) : Int) ≤ 0) ||
              decide (12 < (((c1 - 48) * 10 + (c2 - 48) : Nat) : Int))) = true := by
            simp; omega
          simp only [this, if_true, hm]
        · have : (decide ((((c1 - 48) * 10 + (c2 - 48) : Nat) : Int) ≤ 0) ||
              decide (12 < (((c1 - 48) * 10 + (c2 - 48) : Nat) : Int))) = false := by
            simp; omega
          simp only [this, hm, if_false, Bool.false_eq_true]
      · simp [h, getnum_fixed, hd]
    · simp [h]

theorem parseLoop_day (layout : Layout) (value : GoString) (f : Fields) :
    parseLoop (([45], Std.stdZeroDay) :: layout) value f =
      match value with
      | c :: c1 :: c2 :: rest =>
        if c = 45 ∧ digitByte c1 ∧ digitByte c2 then
          parseLoop layout rest { f with day := (((c1 - 48) * 10 + (c2 - 48) : Nat) : Int) }
        else .error ParseError.bad
      | _ => .error ParseError.bad := by
  rw [parseLoop, skip_hyphen]
  match value with
  | [] => simp
  | [c] => by_cases h : c = 45 <;> simp [h, getnum_fixed]
  | [c, c1] => by_cases h : c = 45 <;> simp [h, getnum_fixed]
  | c :: c1 :: c2 :: rest =>
    by_cases h : c = 45
    · by_cases hd : digitByte c1 ∧ digitByte c2
      · simp only [h, if_true, getnum_fixed, hd, and_self]
      · simp [h, getnum_fixed, hd]
    · simp [h]

theorem parseLoop_nil (value : GoString) (f : Fields) :
    parseLoop [] value f = match value with
      | [] => .ok f
      | _ :: _ => .error ParseError.extraText := by
  rw [parseLoop]
  cases value <;> simp

/-! ## Lemmas: digits and texts -/

theorem dec4_digits (c1 c2 c3 c4 : Nat) (h1 : digitByte c1) (h2 : digitByte c2)
    (h3 : digitByte c3) (h4 : digitByte c4) :
    dec4 ((c1 - 48) * 1000 + (c2 - 48) * 100 + (c3 - 48) * 10 + (c4 - 48)) = [c1, c2, c3, c4]
      ∧ (c1 - 48) * 1000 + (c2 - 48) * 100 + (c3 - 48) * 10 + (c4 - 48) < 10000 := by
  unfold digitByte at h1 h2 h3 h4
  unfold dec4
  refine ⟨?_, by omega⟩
  have e1 : 48 + ((c1 - 48) * 1000 + (c2 - 48) * 100 + (c3 - 48) * 10 + (c4 - 48)) / 1000 = c1 := by
    omega
  have e2 : 48 + ((c1 - 48) * 1000 + (c2 - 48) * 100 + (c3 - 48) * 10 + (c4 - 48)) / 100 % 10
      = c2 := by omega
  have e3 : 48 + ((c1 - 48) * 1000 + (c2 - 48) * 100 + (c3 - 48) * 10 + (c4 - 48)) / 10 % 10
      = c3 := by omega
  have e4 : 48 + ((c1 - 48) * 1000 + (c2 - 48) * 100 + (c3 - 48) * 10 + (c4 - 48)) % 10 = c4 := by
    omega
  rw [e1, e2, e3, e4]

theorem dec2_digits (c1 c2 : Nat) (h1 : digitByte c1) (h2 : digitByte c2) :
    dec2 ((c1 - 48) * 10 + (c2 - 48)) = [c1, c2] ∧ (c1 - 48) * 10 + (c2 - 48) < 100 := by
  unfold digitByte at h1 h2
  unfold dec2
  refine ⟨?_, by omega⟩
  have e1 : 48 + ((c1 - 48) * 10 + (c2 - 48)) / 10 = c1 := by omega
  have e2 : 48 + ((c1 - 48) * 10 + (c2 - 48)) % 10 = c2 := by omega
  rw [e1, e2]

theorem digits_dec4 (Y : Nat) (h : Y < 10000) :
    digitByte (48 + Y / 1000) ∧ digitByte (48 + Y / 100 % 10) ∧ digitByte (48 + Y / 10 % 10)
      ∧ digitByte (48 + Y % 10)
      ∧ (48 + Y / 1000 - 48) * 1000 + (48 + Y / 100 % 10 - 48) * 100
          + (48 + Y / 10 % 10 - 48) * 10 + (48 + Y % 10 - 48) = Y := by
  unfold digitByte
  omega

theorem digits_dec2 (M : Nat) (h : M < 100) :
    digitByte (48 + M / 10) ∧ digitByte (48 + M % 10)
      ∧ (48 + M / 10 - 48) * 10 + (48 + M % 10 - 48) = M := by
  unfold digitByte
  omega

end time

namespace time

/-! ## Lemmas: `parseLoop` on the three layouts -/

theorem parseLoop_yearText (layout : Layout) (Y : Nat) (rest : GoString) (f : Fields)
    (hY : Y < 10000) :
    parseLoop (([], Std.stdLongYear) :: layout) (dec4 Y ++ rest) f
      = parseLoop layout rest { f with year := (Y : Int) } := by
  obtain ⟨h1, h2, h3, h4, e⟩ := digits_dec4 Y hY
  rw [parseLoop_year]
  simp only [dec4, List.cons_append, List.nil_append, h1, h2, h3, h4, and_self, if_true, e]

theorem parseLoop_monthText (layout : Layout) (M : Nat) (rest : GoString) (f : Fields)
    (hM : M < 100) :
    parseLoop (([45], Std.stdZeroMonth) :: layout) (45 :: (dec2 M ++ rest)) f
      = if M = 0 ∨ 12 < M then .error ParseError.monthOutOfRange
        else parseLoop layout rest { f with month := (M : Int) } := by
  obtain ⟨h1, h2, e⟩ := digits_dec2 M hM
  rw [parseLoop_month]
  simp only [dec2, List.cons_append, List.nil_append, h1, h2, and_self, if_true, e]

theorem parseLoop_dayText (layout : Layout) (D : Nat) (rest : GoString) (f : Fields)
    (hD : D < 100) :
    parseLoop (([45], Std.stdZeroDay) :: layout) (45 :: (dec2 D ++ rest)) f
      = parseLoop layout rest { f with day := (D : Int) } := by
  obtain ⟨h1, h2, e⟩ := digits_dec2 D hD
  rw [parseLoop_day]
  simp only [dec2, List.cons_append, List.nil_append, h1, h2, and_self, if_true, e]

/-- Whatever `parseLoop` accepts under a layout that starts with the year is
four digits followed by something the rest of the layout accepts. -/
theorem parseLoop_year_ok (layout : Layout) (v : GoString) (f g : Fields)
    (h : parseLoop (([], Std.stdLongYear) :: layout) v f = .ok g) :
    ∃ Y rest, Y < 10000 ∧ v = dec4 Y ++ rest ∧
      parseLoop layout rest { f with year := (Y : Int) } = .ok g := by
  rw [parseLoop_year] at h
  match v, h with
  | c1 :: c2 :: c3 :: c4 :: rest, h =>
    simp only [] at h
    by_cases hd : digitByte c1 ∧ digitByte c2 ∧ digitByte c3 ∧ digitByte c4
    · rw [if_pos hd] at h
      obtain ⟨e, hlt⟩ := dec4_digits c1 c2 c3 c4 hd.1 hd.2.1 hd.2.2.1 hd.2.2.2
      exact ⟨_, rest, hlt, by rw [e]; rfl, h⟩
    · rw [if_neg hd] at h
      cases h

theorem parseLoop_month_ok (layout : Layout) (v : GoString) (f g : Fields)
    (h : parseLoop (([45], Std.stdZeroMonth) :: layout) v f = .ok g) :
    ∃ M rest, 1 ≤ M ∧ M ≤ 12 ∧ v = 45 :: (dec2 M ++ rest) ∧
      parseLoop layout rest { f with month := (M : Int) } = .ok g := by
  rw [parseLoop_month] at h
  match v, h with
  | c :: c1 :: c2 :: rest, h =>
    simp only [] at h
    by_cases hd : c = 45 ∧ digitByte c1 ∧ digitByte c2
    · rw [if_pos hd] at h
      obtain ⟨e, -⟩ := dec2_digits c1 c2 hd.2.1 hd.2.2
      by_cases hm : (c1 - 48) * 10 + (c2 - 48) = 0 ∨ 12 < (c1 - 48) * 10 + (c2 - 48)
      · rw [if_pos hm] at h
        cases h
      · rw [if_neg hm] at h
        exact ⟨_, rest, by omega, by omega, by rw [e, hd.1]; rfl, h⟩
    · rw [if_neg hd] at h
      cases h

theorem parseLoop_day_ok (layout : Layout) (v : GoString) (f g : Fields)
    (h : parseLoop (([45], Std.stdZeroDay) :: layout) v f = .ok g) :
    ∃ D rest, D < 100 ∧ v = 45 :: (dec2 D ++ rest) ∧
      parseLoop layout rest { f with day := (D : Int) } = .ok g := by
  rw [parseLoop_day] at h
  match v, h with
  | c :: c1 :: c2 :: rest, h =>
    simp only [] at h
    by_cases hd : c = 45 ∧ digitByte c1 ∧ digitByte c2
    · rw [if_pos hd] at h
      obtain ⟨e, hlt⟩ := dec2_digits c1 c2 hd.2.1 hd.2.2
      exact ⟨_, rest, hlt, by rw [e, hd.1]; rfl, h⟩
    · rw [if_neg hd] at h
      cases h

theorem parseLoop_nil_ok (v : GoString) (f g : Fields) (h : parseLoop [] v f = .ok g) :
    v = [] ∧ g = f := by
  rw [parseLoop_nil] at h
  match v, h with
  | [], h =>
    simp only [Except.ok.injEq] at h
    exact ⟨rfl, h.symm⟩

/-! ## Lemmas: `Parse` on the three layouts -/

theorem Parse_dateText (Y M D : Nat) (hY : Y < 10000) (hM : M < 100) (hD : D < 100) :
    Parse layoutDate (dateText Y M D) =
      if M = 0 ∨ 12 < M then (Time.zero, some ParseError.monthOutOfRange)
      else if validDate Y M D then (Date Y M D 0 0 0 0, none)
      else (Time.zero, some ParseError.dayOutOfRange) := by
  unfold Parse layoutDate dateText
  rw [parseLoop_yearText _ Y _ _ hY, parseLoop_monthText _ M _ _ hM]
  by_cases hm : M = 0 ∨ 12 < M
  · rw [if_pos hm, if_pos hm]
  · rw [if_neg hm, if_neg hm]
    have e := parseLoop_dayText [] D [] { year := (Y : Int), month := (M : Int) } hD
    rw [List.append_nil] at e
    rw [e, parseLoop_nil]
    simp only []
    have eD : (if (D : Int) < 0 then 1 else (D : Int)) = D := if_neg (by omega)
    have eM : (if (M : Int) < 0 then 1 else (M : Int)) = M := if_neg (by omega)
    rw [eD, eM, daysIn_ofNat Y M (by omega) (by omega)]
    unfold validDate
    by_cases hv : 1 ≤ D ∧ D ≤ monthLength (leapYear Y) M
    · have : (decide ((D : Int) < 1) || decide ((D : Int) > ((monthLength (leapYear Y) M : Nat) : Int)))
          = false := by simp; omega
      rw [this, if_pos hv]
      simp only [Bool.false_eq_true, if_false]
    · have : (decide ((D : Int) < 1) || decide ((D : Int) > ((monthLength (leapYear Y) M : Nat) : Int)))
          = true := by simp; omega
      rw [this, if_neg hv]
      simp only [if_true]

theorem Parse_yearMonthText (Y M : Nat) (hY : Y < 10000) (hM : M < 100) :
    Parse layoutYearMonth (yearMonthText Y M) =
      if M = 0 ∨ 12 < M then (Time.zero, some ParseError.monthOutOfRange)
      else (Date Y M 1 0 0 0 0, none) := by
  unfold Parse layoutYearMonth yearMonthText
  rw [parseLoop_yearText _ Y _ _ hY]
  have e := parseLoop_monthText [] M [] { year := (Y : Int) } hM
  rw [List.append_nil] at e
  rw [e]
  by_cases hm : M = 0 ∨ 12 < M
  · rw [if_pos hm, if_pos hm]
  · rw [if_neg hm, if_neg hm, parseLoop_nil]
    simp only []
    have eD : (if (-1 : Int) < 0 then (1 : Int) else -1) = 1 := by decide
    have eM : (if (M : Int) < 0 then 1 else (M : Int)) = M := if_neg (by omega)
    rw [eD, eM, daysIn_ofNat Y M (by omega) (by omega)]
    have hl : 1 ≤ monthLength (leapYear Y) M := by
      have hM12 : M < 13 := by omega
      have hM1 : 1 ≤ M := by omega
      clear e hm hM
      generalize leapYear Y = leap
      unfold monthLength
      interval_cases M <;> simp
      split <;> omega
    have : (decide ((1 : Int) < 1) || decide ((1 : Int) > ((monthLength (leapYear Y) M : Nat) : Int)))
        = false := by simp; omega
    rw [this]
    simp only [Bool.false_eq_true, if_false]

theorem Parse_yearText (Y : Nat) (hY : Y < 10000) :
    Parse layoutYear (yearText Y) = (Date Y 1 1 0 0 0 0, none) := by
  unfold Parse layoutYear yearText
  have e := parseLoop_yearText [] Y [] {} hY
  rw [List.append_nil] at e
  rw [e, parseLoop_nil]
  simp only []
  have eD : (if (-1 : Int) < 0 then (1 : Int) else -1) = 1 := by decide
  have e1 := daysIn_ofNat Y 1 (by omega) (by omega)
  simp only [Nat.cast_one] at e1
  rw [eD, e1]
  rfl

theorem Parse_ok_date (v : GoString) (h : (Parse layoutDate v).2 = none) :
    ∃ Y M D, Y < 10000 ∧ 1 ≤ M ∧ M ≤ 12 ∧ validDate Y M D ∧ v = dateText Y M D := by
  unfold Parse at h
  cases hp : parseLoop layoutDate v {} with
  | error e => rw [hp] at h; cases h
  | ok g =>
    obtain ⟨Y, r1, hY, e1, h1⟩ := parseLoop_year_ok _ v _ g hp
    obtain ⟨M, r2, hM1, hM2, e2, h2⟩ := parseLoop_month_ok _ r1 _ g h1
    obtain ⟨D, r3, hD, e3, h3⟩ := parseLoop_day_ok _ r2 _ g h2
    obtain ⟨e4, -⟩ := parseLoop_nil_ok r3 _ g h3
    have ev : v = dateText Y M D := by
      rw [e1, e2, e3, e4, List.append_nil]; rfl
    refine ⟨Y, M, D, hY, hM1, hM2, ?_, ev⟩
    by_cases hv : validDate Y M D
    · exact hv
    · have hP := Parse_dateText Y M D hY (by omega) hD
      rw [if_neg (by omega), if_neg hv] at hP
      unfold Parse at hP
      rw [← ev, hp] at hP
      rw [hp] at h
      rw [hP] at h
      cases h

theorem Parse_ok_yearMonth (v : GoString) (h : (Parse layoutYearMonth v).2 = none) :
    ∃ Y M, Y < 10000 ∧ 1 ≤ M ∧ M ≤ 12 ∧ v = yearMonthText Y M := by
  unfold Parse at h
  cases hp : parseLoop layoutYearMonth v {} with
  | error e => rw [hp] at h; cases h
  | ok g =>
    obtain ⟨Y, r1, hY, e1, h1⟩ := parseLoop_year_ok _ v _ g hp
    obtain ⟨M, r2, hM1, hM2, e2, h2⟩ := parseLoop_month_ok _ r1 _ g h1
    obtain ⟨e4, -⟩ := parseLoop_nil_ok r2 _ g h2
    exact ⟨Y, M, hY, hM1, hM2, by rw [e1, e2, e4, List.append_nil]; rfl⟩

theorem Parse_ok_year (v : GoString) (h : (Parse layoutYear v).2 = none) :
    ∃ Y, Y < 10000 ∧ v = yearText Y := by
  unfold Parse at h
  cases hp : parseLoop layoutYear v {} with
  | error e => rw [hp] at h; cases h
  | ok g =>
    obtain ⟨Y, r1, hY, e1, h1⟩ := parseLoop_year_ok _ v _ g hp
    obtain ⟨e4, -⟩ := parseLoop_nil_ok r1 _ g h1
    exact ⟨Y, hY, by rw [e1, e4, List.append_nil]; rfl⟩

/-- On failure `Parse` returns the zero time. -/
theorem Parse_error_zero (layout : Layout) (v : GoString) (e : ParseError)
    (h : (Parse layout v).2 = some e) : (Parse layout v).1 = Time.zero := by
  unfold Parse at h ⊢
  cases hp : parseLoop layout v {} with
  | error e => rfl
  | ok g =>
    rw [hp] at h
    simp only [] at h ⊢
    by_cases hc : (decide ((if g.day < 0 then 1 else g.day) < 1) ||
        decide ((if g.day < 0 then 1 else g.day)
          > daysIn (if g.month < 0 then 1 else g.month) g.year)) = true
    · rw [if_pos hc]
    · rw [if_neg hc] at h
      cases h

end time

namespace time

/-! ## Lemmas: `Format` on the three layouts -/

theorem appendInt_dec4 (b : GoString) (Y : Nat) (hY : Y < 10000) :
    appendInt b (Y : Int) 4 = b ++ dec4 Y := by
  unfold appendInt
  have hx : ¬ ((Y : Int) < 0) := by omega
  simp only [hx, if_false]
  rw [toUint64_ofNat Y (by omega)]
  simp [hY, dec4]

theorem appendInt_dec2 (b : GoString) (M : Nat) (hM : M < 100) :
    appendInt b (M : Int) 2 = b ++ dec2 M := by
  unfold appendInt
  have hx : ¬ ((M : Int) < 0) := by omega
  simp only [hx, if_false]
  rw [toUint64_ofNat M (by omega)]
  simp [hM, dec2]

theorem Format_date (Y M D : Nat) (hY : Y < 10000) (hM1 : 1 ≤ M) (hM : M ≤ 12)
    (hD : validDate Y M D) :
    (Date Y M D 0 0 0 0).Format layoutDate = dateText Y M D := by
  have hD31 : D ≤ 31 := by
    have := monthLength_le (leapYear Y) M
    unfold validDate at hD
    omega
  unfold Time.Format
  rw [absDate_Date Y M D hY hM1 hM hD.1 hD.2]
  simp only [layoutDate, formatLoop, List.append_nil, List.nil_append]
  rw [appendInt_dec4 _ Y hY, appendInt_dec2 _ M (by omega), appendInt_dec2 _ D (by omega)]
  simp only [dateText, List.nil_append, List.append_assoc, List.cons_append]

theorem Format_yearMonth (Y M : Nat) (hY : Y < 10000) (hM1 : 1 ≤ M) (hM : M ≤ 12) :
    (Date Y M 1 0 0 0 0).Format layoutYearMonth = yearMonthText Y M := by
  have hl : 1 ≤ monthLength (leapYear Y) M := by
    have hM12 : M < 13 := by omega
    generalize leapYear Y = leap
    unfold monthLength
    interval_cases M <;> simp
    split <;> omega
  unfold Time.Format
  have e := absDate_Date Y M 1 hY hM1 hM (by omega) hl
  simp only [Nat.cast_one] at e
  rw [e]
  simp only [layoutYearMonth, formatLoop, List.append_nil, List.nil_append]
  rw [appendInt_dec4 _ Y hY, appendInt_dec2 _ M (by omega)]
  simp only [yearMonthText, List.nil_append, List.append_assoc, List.cons_append]

theorem Format_year (Y : Nat) (hY : Y < 10000) :
    (Date Y 1 1 0 0 0 0).Format layoutYear = yearText Y := by
  unfold Time.Format
  have e := absDate_Date Y 1 1 hY (by omega) (by omega) (by omega)
    (by show 1 ≤ 31; omega)
  simp only [Nat.cast_one] at e
  rw [e]
  simp only [layoutYear, formatLoop, List.append_nil, List.nil_append]
  rw [appendInt_dec4 _ Y hY]
  simp only [yearText, List.nil_append]

end time

/-! ## Lemmas: hyphen counts -/

theorem Count_dec4 (Y : Nat) (rest : GoString) (hY : Y < 10000) :
    strings.Count (dec4 Y ++ rest) 45 = strings.Count rest 45 := by
  show strings.Count ((48 + Y / 1000) :: (48 + Y / 100 % 10) :: (48 + Y / 10 % 10)
    :: (48 + Y % 10) :: rest) 45 = _
  simp only [strings.Count]
  rw [if_neg (by omega), if_neg (by omega), if_neg (by omega), if_neg (by omega)]
  omega

theorem Count_dec2 (M : Nat) (rest : GoString) (hM : M < 100) :
    strings.Count (dec2 M ++ rest) 45 = strings.Count rest 45 := by
  show strings.Count ((48 + M / 10) :: (48 + M % 10) :: rest) 45 = _
  simp only [strings.Count]
  rw [if_neg (by omega), if_neg (by omega)]
  omega

theorem Count_yearText (Y : Nat) (hY : Y < 10000) : strings.Count (yearText Y) 45 = 0 := by
  have := Count_dec4 Y [] hY
  rw [List.append_nil] at this
  unfold yearText
  rw [this]
  rfl

theorem Count_yearMonthText (Y M : Nat) (hY : Y < 10000) (hM : M < 100) :
    strings.Count (yearMonthText Y M) 45 = 1 := by
  have h2 := Count_dec2 M [] hM
  rw [List.append_nil] at h2
  unfold yearMonthText
  rw [Count_dec4 Y _ hY, strings.Count, h2]
  rfl

theorem Count_dateText (Y M D : Nat) (hY : Y < 10000) (hM : M < 100) (hD : D < 100) :
    strings.Count (dateText Y M D) 45 = 2 := by
  have h2 := Count_dec2 D [] hD
  rw [List.append_nil] at h2
  unfold dateText
  rw [Count_dec4 Y _ hY, strings.Count, Count_dec2 M _ hM, strings.Count, h2]
  rfl

/-! ## Lemmas: `UnmarshalXML` by hyphen count -/

/-- With no hyphen in the text, `UnmarshalXML` runs `time.Parse` with the layout
`"2006"`; likewise below for one and two hyphens. -/
theorem UnmarshalXML_zero (t : BrainzTime) (v : GoString) (h : strings.Count v 45 = 0) :
    BrainzTime.UnmarshalXML t v =
      match (time.Parse time.layoutYear v).2 with
      | some e => (t, some e)
      | none => ({ Time := (time.Parse time.layoutYear v).1 }, none) := by
  unfold BrainzTime.UnmarshalXML
  rw [h]
  try rfl

theorem UnmarshalXML_one (t : BrainzTime) (v : GoString) (h : strings.Count v 45 = 1) :
    BrainzTime.UnmarshalXML t v =
      match (time.Parse time.layoutYearMonth v).2 with
      | some e => (t, some e)
      | none => ({ Time := (time.Parse time.layoutYearMonth v).1 }, none) := by
  unfold BrainzTime.UnmarshalXML
  rw [h]
  try rfl

theorem UnmarshalXML_two (t : BrainzTime) (v : GoString) (h : strings.Count v 45 = 2) :
    BrainzTime.UnmarshalXML t v =
      match (time.Parse time.layoutDate v).2 with
      | some e => (t, some e)
      | none => ({ Time := (time.Parse time.layoutDate v).1 }, none) := by
  unfold BrainzTime.UnmarshalXML
  rw [h]
  try rfl

theorem UnmarshalXML_many (t : BrainzTime) (v : GoString) (h : 3 ≤ strings.Count v 45) :
    BrainzTime.UnmarshalXML t v = ({ Time := time.Time.zero }, none) := by
  unfold BrainzTime.UnmarshalXML
  obtain ⟨n, hn⟩ : ∃ n, strings.Count v 45 = n + 3 := ⟨strings.Count v 45 - 3, by omega⟩
  rw [hn]
  rfl

theorem UnmarshalXML_yearText (t : BrainzTime) (Y : Nat) (hY : Y < 10000) :
    BrainzTime.UnmarshalXML t (yearText Y) = ({ Time := time.Date Y 1 1 0 0 0 0 }, none) := by
  rw [UnmarshalXML_zero t _ (Count_yearText Y hY), time.Parse_yearText Y hY]

theorem UnmarshalXML_yearMonthText (t : BrainzTime) (Y M : Nat) (hY : Y < 10000) (hM : M < 100) :
    BrainzTime.UnmarshalXML t (yearMonthText Y M) =
      if M = 0 ∨ 12 < M then (t, some time.ParseError.monthOutOfRange)
      else ({ Time := time.Date Y M 1 0 0 0 0 }, none) := by
  rw [UnmarshalXML_one t _ (Count_yearMonthText Y M hY hM), time.Parse_yearMonthText Y M hY hM]
  by_cases hm : M = 0 ∨ 12 < M
  · rw [if_pos hm, if_pos hm]
  · rw [if_neg hm, if_neg hm]

theorem UnmarshalXML_dateText (t : BrainzTime) (Y M D : Nat) (hY : Y < 10000) (hM : M < 100)
    (hD : D < 100) :
    BrainzTime.UnmarshalXML t (dateText Y M D) =
      if M = 0 ∨ 12 < M then (t, some time.ParseError.monthOutOfRange)
      else if validDate Y M D then ({ Time := time.Date Y M D 0 0 0 0 }, none)
      else (t, some time.ParseError.dayOutOfRange) := by
  rw [UnmarshalXML_two t _ (Count_dateText Y M D hY hM hD), time.Parse_dateText Y M D hY hM hD]
  by_cases hm : M = 0 ∨ 12 < M
  · rw [if_pos hm, if_pos hm]
  · rw [if_neg hm, if_neg hm]
    by_cases hv : validDate Y M D
    · rw [if_pos hv, if_pos hv]
    · rw [if_neg hv, if_neg hv]

/-- The texts on which `UnmarshalXML` succeeds. -/
theorem UnmarshalXML_ok (t : BrainzTime) (v : GoString)
    (h : (BrainzTime.UnmarshalXML t v).2 = none) :
    (strings.Count v 45 = 0 ∧ ∃ Y, Y < 10000 ∧ v = yearText Y) ∨
    (strings.Count v 45 = 1 ∧ ∃ Y M, Y < 10000 ∧ 1 ≤ M ∧ M ≤ 12 ∧ v = yearMonthText Y M) ∨
    (strings.Count v 45 = 2 ∧
      ∃ Y M D, Y < 10000 ∧ 1 ≤ M ∧ M ≤ 12 ∧ validDate Y M D ∧ v = dateText Y M D) ∨
    3 ≤ strings.Count v 45 := by
  rcases Nat.lt_or_ge (strings.Count v 45) 3 with hlt | hge
  · have h012 : strings.Count v 45 = 0 ∨ strings.Count v 45 = 1 ∨ strings.Count v 45 = 2 := by
      omega
    rcases h012 with h0 | h1 | h2
    · left
      refine ⟨h0, time.Parse_ok_year v ?_⟩
      rw [UnmarshalXML_zero t v h0] at h
      cases hp : (time.Parse time.layoutYear v).2 with
      | none => rfl
      | some e => rw [hp] at h; cases h
    · right; left
      refine ⟨h1, time.Parse_ok_yearMonth v ?_⟩
      rw [UnmarshalXML_one t v h1] at h
      cases hp : (time.Parse time.layoutYearMonth v).2 with
      | none => rfl
      | some e => rw [hp] at h; cases h
    · right; right; left
      refine ⟨h2, time.Parse_ok_date v ?_⟩
      rw [UnmarshalXML_two t v h2] at h
      cases hp : (time.Parse time.layoutDate v).2 with
      | none => rfl
      | some e => rw [hp] at h; cases h
  · right; right; right
    exact hge

/-! ## Lemmas: the zero time -/

theorem Date_year_one : time.Date 1 1 1 0 0 0 0 = time.Time.zero := by decide

theorem absDate_zero : time.absDate time.Time.zero.locabs = (1, 1, 1) := by decide

theorem Date_eq_zero (Y M D : Nat) (hY : Y < 10000) (hM1 : 1 ≤ M) (hM : M ≤ 12)
    (hD : validDate Y M D) (h : time.Date Y M D 0 0 0 0 = time.Time.zero) :
    Y = 1 ∧ M = 1 ∧ D = 1 := by
  have e := time.absDate_Date Y M D hY hM1 hM hD.1 hD.2
  rw [h, absDate_zero] at e
  simp only [Prod.mk.injEq] at e
  omega

theorem validDate_first (Y M : Nat) (hM1 : 1 ≤ M) (hM : M ≤ 12) : validDate Y M 1 := by
  unfold validDate
  have hM12 : M < 13 := by omega
  generalize leapYear Y = leap
  unfold monthLength
  interval_cases M <;> simp
  split <;> omega

theorem Date_midnight (Y M D : Nat) (hY : Y < 10000) (hM1 : 1 ≤ M) (hM : M ≤ 12)
    (hD : validDate Y M D) :
    (time.Date Y M D 0 0 0 0).wall = 0 ∧ (time.Date Y M D 0 0 0 0).loc = none ∧
      (time.Date Y M D 0 0 0 0).ext % 86400 = 0 := by
  rw [time.Date_ofNat Y M D hY hM1 hM hD.1 hD.2]
  refine ⟨rfl, rfl, ?_⟩
  simp only []
  generalize time.daysSinceEpoch Y + dayOfYear (leapYear Y) M D = N
  omega

/-! ## Lemmas: the receiver of `UnmarshalXML` -/

/-- The value that the `switch` of `UnmarshalXML` leaves in `p, err`. -/
theorem UnmarshalXML_switch (v : GoString) :
    ∃ r : time.Time × Option time.ParseError,
      (r.1 = match strings.Count v 45 with
        | 0 => (time.Parse time.layoutYear v).1
        | 1 => (time.Parse time.layoutYearMonth v).1
        | 2 => (time.Parse time.layoutDate v).1
        | _ => time.Time.zero) ∧
      ∀ t : BrainzTime, BrainzTime.UnmarshalXML t v =
        (match r.2 with
          | some _ => t
          | none => { Time := r.1 }, r.2) := by
  have key : ∀ t : BrainzTime, ∀ r : time.Time × Option time.ParseError,
      (match r.2 with
        | some e => (t, some e)
        | none => (({ Time := r.1 } : BrainzTime), (none : Option time.ParseError)))
      = (match r.2 with
        | some _ => t
        | none => { Time := r.1 }, r.2) := by
    intro t r
    cases r.2 <;> rfl
  refine ⟨match strings.Count v 45 with
      | 0 => time.Parse time.layoutYear v
      | 1 => time.Parse time.layoutYearMonth v
      | 2 => time.Parse time.layoutDate v
      | _ => (time.Time.zero, none), ?_, fun t => key t _⟩
  split <;> rfl

theorem UnmarshalXML_error (t : BrainzTime) (v : GoString) (e : time.ParseError)
    (h : (BrainzTime.UnmarshalXML t v).2 = some e) : BrainzTime.UnmarshalXML t v = (t, some e) := by
  obtain ⟨r, -, hU⟩ := UnmarshalXML_switch v
  rw [hU t] at h ⊢
  have h2 : r.2 = some e := h
  rw [h2]

theorem UnmarshalXML_receiver_free (t0 t1 : BrainzTime) (v : GoString) :
    (BrainzTime.UnmarshalXML t1 v).2 = (BrainzTime.UnmarshalXML t0 v).2 := by
  obtain ⟨r, -, hU⟩ := UnmarshalXML_switch v
  rw [hU t0, hU t1]

theorem UnmarshalXML_success (t0 : BrainzTime) (v : GoString)
    (h : (BrainzTime.UnmarshalXML t0 v).2 = none) :
    (BrainzTime.UnmarshalXML t0 v).1 =
        { Time :=
            match strings.Count v 45 with
            | 0 => (time.Parse time.layoutYear v).1
            | 1 => (time.Parse time.layoutYearMonth v).1
            | 2 => (time.Parse time.layoutDate v).1
            | _ => time.Time.zero } ∧
      ∀ t1, BrainzTime.UnmarshalXML t1 v = BrainzTime.UnmarshalXML t0 v := by
  obtain ⟨r, hp, hU⟩ := UnmarshalXML_switch v
  rw [hU t0] at h
  have h2 : r.2 = none := h
  refine ⟨?_, ?_⟩
  · rw [hU t0]
    show (match r.2 with
      | some _ => t0
      | none => { Time := r.1 }) = _
    rw [h2, hp]
  · intro t1
    rw [hU t1, hU t0, h2]

/-! ## Lemmas: decimal texts and `copyValue` -/

theorem natTextLoop_digits (fuel : Nat) : ∀ (u : Nat) (acc : GoString),
    (∀ c ∈ acc, digitByte c) → ∀ c ∈ natTextLoop fuel u acc, digitByte c := by
  induction fuel with
  | zero => intro u acc h; exact h
  | succ fuel ih =>
    intro u acc h
    unfold natTextLoop
    by_cases hu : u ≥ 10
    · rw [if_pos hu]
      apply ih
      intro c hc
      rcases List.mem_cons.mp hc with rfl | hc
      · unfold digitByte; omega
      · exact h c hc
    · rw [if_neg hu]
      intro c hc
      rcases List.mem_cons.mp hc with rfl | hc
      · unfold digitByte; omega
      · exact h c hc

theorem natTextLoop_ne_nil (fuel : Nat) : ∀ (u : Nat) (acc : GoString),
    natTextLoop (fuel + 1) u acc ≠ [] := by
  induction fuel with
  | zero =>
    intro u acc
    unfold natTextLoop
    by_cases hu : u ≥ 10
    · rw [if_pos hu]; unfold natTextLoop; simp
    · rw [if_neg hu]; simp
  | succ fuel ih =>
    intro u acc
    unfold natTextLoop
    by_cases hu : u ≥ 10
    · rw [if_pos hu]; exact ih _ _
    · rw [if_neg hu]; simp

theorem parseUintLoop_digit (c : Nat) (s : GoString) (n : Nat) (hc : digitByte c)
    (hn : n * 10 + (c - 48) ≤ 18446744073709551615) :
    strconv.parseUintLoop (c :: s) n = strconv.parseUintLoop s (n * 10 + (c - 48)) := by
  unfold digitByte at hc
  rw [strconv.parseUintLoop]
  simp only []
  rw [if_pos hc, if_neg (by omega), if_neg (by omega)]

theorem parseUintLoop_natTextLoop (fuel : Nat) : ∀ (u : Nat) (acc : GoString),
    u < fuel → u ≤ 18446744073709551615 →
    strconv.parseUintLoop (natTextLoop fuel u acc) 0 = strconv.parseUintLoop acc u := by
  induction fuel with
  | zero => intro u acc h; omega
  | succ fuel ih =>
    intro u acc h hu
    unfold natTextLoop
    by_cases h10 : u ≥ 10
    · rw [if_pos h10, ih (u / 10) _ (by omega) (by omega),
        parseUintLoop_digit _ _ _ (by unfold digitByte; omega) (by omega)]
      congr 1
      omega
    · rw [if_neg h10, parseUintLoop_digit _ _ _ (by unfold digitByte; omega) (by omega)]
      congr 1
      omega

theorem natText_shape (u : Nat) :
    ∃ c r, natText u = c :: r ∧ digitByte c ∧ ∀ x ∈ r, digitByte x := by
  have hd := natTextLoop_digits (u + 1) u [] (by simp)
  have hn := natTextLoop_ne_nil u u []
  unfold natText
  cases h : natTextLoop (u + 1) u [] with
  | nil => exact absurd h hn
  | cons c r =>
    rw [h] at hd
    exact ⟨c, r, rfl, hd c (by simp), fun x hx => hd x (by simp [hx])⟩

theorem ParseUint_natText (u : Nat) (hu : u ≤ 18446744073709551615) :
    strconv.ParseUint (natText u) = (u, none) := by
  obtain ⟨c, r, e, -, -⟩ := natText_shape u
  unfold strconv.ParseUint
  rw [if_neg (by rw [e]; simp)]
  unfold natText
  rw [parseUintLoop_natTextLoop (u + 1) u [] (by omega) hu]
  rfl

theorem ParseInt_intText (n : Int) (h1 : -9223372036854775808 ≤ n) (h2 : n < 9223372036854775808) :
    strconv.ParseInt (intText n) = (n, none) := by
  unfold intText
  by_cases hneg : n < 0
  · rw [if_pos hneg]
    have hp := ParseUint_natText (-n).toNat (by omega)
    unfold strconv.ParseInt
    simp only [or_true, if_true, beq_self_eq_true, Bool.not_true, Bool.false_and,
      Bool.false_eq_true, if_false, Bool.true_and, hp, reduceCtorEq, decide_eq_true_eq]
    rw [if_neg (by omega)]
    have e1 : toInt64 (-toInt64 ((-n).toNat : Int)) = n := by
      unfold toInt64; omega
    rw [e1]
  · rw [if_neg hneg]
    obtain ⟨c, r, e, hc, -⟩ := natText_shape n.toNat
    have hp := ParseUint_natText n.toNat (by omega)
    rw [e] at hp ⊢
    unfold digitByte at hc
    unfold strconv.ParseInt
    have h43 : ¬ (c = 43 ∨ c = 45) := by omega
    have h45 : (c == 45) = false := by simp; omega
    simp only [h43, if_false, h45, hp, reduceCtorEq, Bool.not_false, Bool.true_and,
      decide_eq_true_eq, Bool.false_and, Bool.false_eq_true]
    rw [if_neg (by omega)]
    have e1 : toInt64 ((n.toNat : Nat) : Int) = n := by
      unfold toInt64; omega
    rw [e1]

theorem spaceLen_digit (c : Nat) (r : GoString) (h : digitByte c ∨ c = 45) :
    strings.spaceLen (c :: r) = 0 := by
  unfold digitByte at h
  unfold strings.spaceLen
  simp only []
  rw [if_neg (by omega), if_neg (by omega), if_neg (by omega), if_neg (by omega),
    if_neg (by omega), if_neg (by omega)]

theorem spaceLenRev_digit (c : Nat) (r : GoString) (h : digitByte c) :
    strings.spaceLenRev (c :: r) = 0 := by
  unfold digitByte at h
  unfold strings.spaceLenRev
  simp only []
  rw [if_neg (by omega), if_neg (by omega), if_neg (by omega), if_neg (by omega),
    if_neg (by omega), if_neg (by omega)]

theorem trimLeft_id (fuel : Nat) (s : GoString) (h : strings.spaceLen s = 0) :
    strings.trimLeft fuel s = s := by
  cases fuel with
  | zero => rfl
  | succ fuel => unfold strings.trimLeft; rw [if_pos h]

theorem trimLeftRev_id (fuel : Nat) (s : GoString) (h : strings.spaceLenRev s = 0) :
    strings.trimLeftRev fuel s = s := by
  cases fuel with
  | zero => rfl
  | succ fuel => unfold strings.trimLeftRev; rw [if_pos h]

theorem TrimSpace_id (c : Nat) (r : GoString) (hc : digitByte c ∨ c = 45)
    (hlast : ∃ x t, (c :: r).reverse = x :: t ∧ digitByte x) :
    strings.TrimSpace (c :: r) = c :: r := by
  obtain ⟨x, t, e, hx⟩ := hlast
  unfold strings.TrimSpace
  simp only []
  rw [trimLeft_id _ _ (spaceLen_digit c r hc), e, trimLeftRev_id _ _ (spaceLenRev_digit x t hx),
    ← e, List.reverse_reverse]

theorem reverse_digits (c : Nat) (r : GoString) (hr : ∀ x ∈ r, digitByte x)
    (hc : digitByte c ∨ r ≠ []) :
    ∃ x t, (c :: r).reverse = x :: t ∧ digitByte x := by
  cases hrev : (c :: r).reverse with
  | nil => simp at hrev
  | cons x t =>
    refine ⟨x, t, rfl, ?_⟩
    have hx : x ∈ (c :: r).reverse := by rw [hrev]; simp
    rw [List.mem_reverse] at hx
    rcases List.mem_cons.mp hx with rfl | hx
    · rcases hc with hc | hne
      · exact hc
      · -- the last byte of a list with a non-empty tail lies in the tail
        have : x ∈ r := by
          cases r with
          | nil => exact absurd rfl hne
          | cons y ys =>
            have h2 : (x :: y :: ys).reverse = (y :: ys).reverse ++ [x] := by simp
            rw [h2] at hrev
            cases hys : (y :: ys).reverse with
            | nil => simp at hys
            | cons z zs =>
              rw [hys] at hrev
              simp only [List.cons_append, List.cons.injEq] at hrev
              have hz : z ∈ (y :: ys).reverse := by rw [hys]; simp
              rw [List.mem_reverse] at hz
              rw [← hrev.1]
              exact hz
        exact hr x this
    · exact hr x hx

theorem TrimSpace_intText (n : Int) : strings.TrimSpace (intText n) = intText n := by
  unfold intText
  by_cases hneg : n < 0
  · rw [if_pos hneg]
    obtain ⟨c, r, e, hc, hr⟩ := natText_shape (-n).toNat
    apply TrimSpace_id _ _ (Or.inr rfl)
    apply reverse_digits
    · rw [e]
      intro x hx
      rcases List.mem_cons.mp hx with rfl | hx
      · exact hc
      · exact hr x hx
    · right; rw [e]; simp
  · rw [if_neg hneg]
    obtain ⟨c, r, e, hc, hr⟩ := natText_shape n.toNat
    rw [e]
    exact TrimSpace_id _ _ (Or.inl hc) (reverse_digits c r hr (Or.inl hc))

theorem intText_ne_nil (n : Int) : (intText n).length ≠ 0 := by
  unfold intText
  by_cases hneg : n < 0
  · rw [if_pos hneg]; simp
  · rw [if_neg hneg]
    obtain ⟨c, r, e, -, -⟩ := natText_shape n.toNat
    rw [e]; simp

/-- An attribute or element text that is the decimal text of a 64-bit integer
is stored as that integer. -/
theorem copyInt_intText (n : Int) (h1 : -9223372036854775808 ≤ n)
    (h2 : n < 9223372036854775808) : xml.copyInt (intText n) = .ok n := by
  unfold xml.copyInt
  rw [if_neg (intText_ne_nil n), TrimSpace_intText, ParseInt_intText n h1 h2]

/-! ## Lemmas: decoding a list container -/

theorem count_ne_offset : ascii "count" ≠ ascii "offset" := by decide

theorem assignAttr_list {σ τ : Type} (setC setO : Int → σ → σ) (en : GoString)
    (etinfo : List (xml.Field τ)) (ezero : τ) (getI : σ → List τ) (setI : List τ → σ → σ)
    (C O : Int) (hC1 : -9223372036854775808 ≤ C) (hC2 : C < 9223372036854775808)
    (hO1 : -9223372036854775808 ≤ O) (hO2 : O < 9223372036854775808)
    (a : xml.Attr) (sv : σ)
    (hc : a.Name.Local = ascii "count" → a.Value = intText C)
    (ho : a.Name.Local = ascii "offset" → a.Value = intText O) :
    xml.assignAttr
        [xml.intAttr [] (ascii "count") setC, xml.intAttr [] (ascii "offset") setO,
          xml.sliceElement [] en etinfo ezero getI setI] a sv
      = .ok (if a.Name.Local = ascii "count" then setC C sv
              else if a.Name.Local = ascii "offset" then setO O sv else sv) := by
  unfold xml.intAttr xml.sliceElement
  simp only [xml.assignAttr, true_or, and_true]
  by_cases h1 : a.Name.Local = ascii "count"
  · have h2 : ¬ a.Name.Local = ascii "offset" := by
      rw [h1]; exact count_ne_offset
    rw [if_pos h1, hc h1, copyInt_intText C hC1 hC2]
    simp only []
    rw [if_neg h2, if_pos h1]
  · rw [if_neg h1, if_neg h1]
    by_cases h2 : a.Name.Local = ascii "offset"
    · rw [if_pos h2, ho h2, copyInt_intText O hO1 hO2, if_pos h2]
    · rw [if_neg h2, if_neg h2]

theorem assignAttrs_list {σ τ : Type} (setC setO : Int → σ → σ) (getC getO : σ → Int)
    (en : GoString) (etinfo : List (xml.Field τ)) (ezero : τ) (getI : σ → List τ)
    (setI : List τ → σ → σ)
    (l1 : ∀ c v, getC (setC c v) = c) (l2 : ∀ o v, getC (setO o v) = getC v)
    (l3 : ∀ c v, getO (setC c v) = getO v) (l4 : ∀ o v, getO (setO o v) = o)
    (l5 : ∀ c v, getI (setC c v) = getI v) (l6 : ∀ o v, getI (setO o v) = getI v)
    (C O : Int) (hC1 : -9223372036854775808 ≤ C) (hC2 : C < 9223372036854775808)
    (hO1 : -9223372036854775808 ≤ O) (hO2 : O < 9223372036854775808) :
    ∀ (attrs : List xml.Attr) (sv : σ),
      (∀ a ∈ attrs, a.Name.Local = ascii "count" → a.Value = intText C) →
      (∀ a ∈ attrs, a.Name.Local = ascii "offset" → a.Value = intText O) →
      ∃ v, xml.assignAttrs
            [xml.intAttr [] (ascii "count") setC, xml.intAttr [] (ascii "offset") setO,
              xml.sliceElement [] en etinfo ezero getI setI] attrs sv = .ok v ∧
        getI v = getI sv ∧
        ((∃ a ∈ attrs, a.Name.Local = ascii "count") → getC v = C) ∧
        ((¬ ∃ a ∈ attrs, a.Name.Local = ascii "count") → getC v = getC sv) ∧
        ((∃ a ∈ attrs, a.Name.Local = ascii "offset") → getO v = O) ∧
        ((¬ ∃ a ∈ attrs, a.Name.Local = ascii "offset") → getO v = getO sv) := by
  intro attrs
  induction attrs with
  | nil =>
    intro sv _ _
    refine ⟨sv, rfl, rfl, ?_, fun _ => rfl, ?_, fun _ => rfl⟩
    · rintro ⟨a, ha, -⟩; cases ha
    · rintro ⟨a, ha, -⟩; cases ha
  | cons a attrs ih =>
    intro sv hc ho
    have ha := assignAttr_list setC setO en etinfo ezero getI setI C O hC1 hC2 hO1 hO2 a sv
      (hc a (List.mem_cons_self _ _)) (ho a (List.mem_cons_self _ _))
    obtain ⟨v, hv, hI, hc1, hc2, ho1, ho2⟩ :=
      ih (if a.Name.Local = ascii "count" then setC C sv
            else if a.Name.Local = ascii "offset" then setO O sv else sv)
        (fun b hb => hc b (List.mem_cons_of_mem _ hb))
        (fun b hb => ho b (List.mem_cons_of_mem _ hb))
    refine ⟨v, ?_, ?_, ?_, ?_, ?_, ?_⟩
    · unfold xml.assignAttrs
      rw [ha]
      exact hv
    · rw [hI]
      by_cases h1 : a.Name.Local = ascii "count"
      · rw [if_pos h1, l5]
      · rw [if_neg h1]
        by_cases h2 : a.Name.Local = ascii "offset"
        · rw [if_pos h2, l6]
        · rw [if_neg h2]
    · rintro ⟨b, hb, hbn⟩
      by_cases hex : ∃ a ∈ attrs, a.Name.Local = ascii "count"
      · exact hc1 hex
      · rw [hc2 hex]
        rcases List.mem_cons.mp hb with rfl | hb
        · rw [if_pos hbn, l1]
        · exact absurd ⟨b, hb, hbn⟩ hex
    · intro hno
      have hex : ¬ ∃ a ∈ attrs, a.Name.Local = ascii "count" := by
        rintro ⟨b, hb, hbn⟩
        exact hno ⟨b, List.mem_cons_of_mem _ hb, hbn⟩
      have h1 : ¬ a.Name.Local = ascii "count" := fun h => hno ⟨a, List.mem_cons_self _ _, h⟩
      rw [hc2 hex, if_neg h1]
      by_cases h2 : a.Name.Local = ascii "offset"
      · rw [if_pos h2, l2]
      · rw [if_neg h2]
    · rintro ⟨b, hb, hbn⟩
      by_cases hex : ∃ a ∈ attrs, a.Name.Local = ascii "offset"
      · exact ho1 hex
      · rw [ho2 hex]
        rcases List.mem_cons.mp hb with rfl | hb
        · have h1 : ¬ b.Name.Local = ascii "count" := by
            rw [hbn]; exact fun h => count_ne_offset h.symm
          rw [if_neg h1, if_pos hbn, l4]
        · exact absurd ⟨b, hb, hbn⟩ hex
    · intro hno
      have hex : ¬ ∃ a ∈ attrs, a.Name.Local = ascii "offset" := by
        rintro ⟨b, hb, hbn⟩
        exact hno ⟨b, List.mem_cons_of_mem _ hb, hbn⟩
      have h2 : ¬ a.Name.Local = ascii "offset" := fun h => hno ⟨a, List.mem_cons_self _ _, h⟩
      rw [ho2 hex]
      by_cases h1 : a.Name.Local = ascii "count"
      · rw [if_pos h1, l3]
      · rw [if_neg h1, if_neg h2]

theorem unmarshalPath_list {σ τ : Type} (setC setO : Int → σ → σ) (en : GoString)
    (etinfo : List (xml.Field τ)) (ezero : τ) (getI : σ → List τ) (setI : List τ → σ → σ)
    (fuel : Nat) (start : xml.StartElement) (children : List xml.Node) (sv : σ) :
    xml.unmarshalPath
        [xml.intAttr [] (ascii "count") setC, xml.intAttr [] (ascii "offset") setO,
          xml.sliceElement [] en etinfo ezero getI setI] fuel [] start children sv
      = if start.Name.Local = en then
          match xml.unmarshalStruct etinfo start children ezero with
          | .error e => .error e
          | .ok v => .ok (true, setI (getI sv ++ [v]) sv)
        else .ok (false, sv) := by
  unfold xml.intAttr xml.sliceElement
  unfold xml.unmarshalPath
  simp only [xml.matchField, List.length_nil, lt_self_iff_false, ne_eq, not_true_eq_false,
    false_and, or_self, if_false, List.take_zero, true_and, gt_iff_lt]
  by_cases h : en = start.Name.Local
  · rw [if_pos h, if_pos h.symm]
    simp only []
    cases xml.unmarshalStruct etinfo start children ezero <;> rfl
  · rw [if_neg h, if_neg (fun h2 => h h2.symm)]

theorem unmarshalChildren_list {σ τ : Type} (setC setO : Int → σ → σ) (getC getO : σ → Int)
    (en : GoString) (etinfo : List (xml.Field τ)) (ezero : τ) (getI : σ → List τ)
    (setI : List τ → σ → σ)
    (l7 : ∀ l v, getI (setI l v) = l) (l8 : ∀ l v, getC (setI l v) = getC v)
    (l9 : ∀ l v, getO (setI l v) = getO v) :
    ∀ (children : List xml.Node) (sv : σ),
      (∀ p ∈ xml.elementsNamed en children,
        ∃ e, xml.unmarshalStruct etinfo p.1 p.2 ezero = .ok e) →
      ∃ v es, xml.unmarshalChildren
            [xml.intAttr [] (ascii "count") setC, xml.intAttr [] (ascii "offset") setO,
              xml.sliceElement [] en etinfo ezero getI setI] children sv = .ok v ∧
        getC v = getC sv ∧ getO v = getO sv ∧ getI v = getI sv ++ es ∧
        List.Forall₂ (fun p e => xml.unmarshalStruct etinfo p.1 p.2 ezero = .ok e)
          (xml.elementsNamed en children) es := by
  intro children
  induction children with
  | nil =>
    intro sv _
    exact ⟨sv, [], rfl, rfl, rfl, by simp, List.Forall₂.nil⟩
  | cons n rest ih =>
    intro sv hdec
    cases n with
    | element start ch =>
      unfold xml.unmarshalChildren
      rw [unmarshalPath_list]
      by_cases h : start.Name.Local = en
      · have hmem : (start, ch) ∈ xml.elementsNamed en (xml.Node.element start ch :: rest) := by
          unfold xml.elementsNamed
          rw [if_pos h]
          exact List.mem_cons_self _ _
        obtain ⟨e, he⟩ := hdec (start, ch) hmem
        have hrest : ∀ p ∈ xml.elementsNamed en rest,
            ∃ e, xml.unmarshalStruct etinfo p.1 p.2 ezero = .ok e := by
          intro p hp
          apply hdec p
          unfold xml.elementsNamed
          rw [if_pos h]
          exact List.mem_cons_of_mem _ hp
        obtain ⟨v, es, hv, hc, ho, hi, hf⟩ := ih (setI (getI sv ++ [e]) sv) hrest
        refine ⟨v, e :: es, ?_, ?_, ?_, ?_, ?_⟩
        · rw [if_pos h]
          simp only [] at he
          rw [he]
          exact hv
        · rw [hc, l8]
        · rw [ho, l9]
        · rw [hi, l7]; simp
        · unfold xml.elementsNamed
          rw [if_pos h]
          exact List.Forall₂.cons he hf
      · have hrest : ∀ p ∈ xml.elementsNamed en rest,
            ∃ e, xml.unmarshalStruct etinfo p.1 p.2 ezero = .ok e := by
          intro p hp
          apply hdec p
          unfold xml.elementsNamed
          rw [if_neg h]
          exact hp
        obtain ⟨v, es, hv, hc, ho, hi, hf⟩ := ih sv hrest
        refine ⟨v, es, ?_, hc, ho, hi, ?_⟩
        · rw [if_neg h]
          exact hv
        · unfold xml.elementsNamed
          rw [if_neg h]
          exact hf
    | charData data =>
      obtain ⟨v, es, hv, hc, ho, hi, hf⟩ := ih sv hdec
      exact ⟨v, es, hv, hc, ho, hi, hf⟩
    | other =>
      obtain ⟨v, es, hv, hc, ho, hi, hf⟩ := ih sv hdec
      exact ⟨v, es, hv, hc, ho, hi, hf⟩

theorem unmarshalPath_root {ρ σ : Type} (ln : GoString) (ltinfo : List (xml.Field σ))
    (getL : ρ → σ) (setL : σ → ρ → ρ) (fuel : Nat) (start : xml.StartElement)
    (children : List xml.Node) (r : ρ) :
    xml.unmarshalPath [xml.structElement ln ltinfo getL setL] fuel [] start children r
      = if start.Name.Local = ln then
          match xml.unmarshalStruct ltinfo start children (getL r) with
          | .error e => .error e
          | .ok v => .ok (true, setL v r)
        else .ok (false, r) := by
  unfold xml.structElement
  unfold xml.unmarshalPath
  simp only [xml.matchField, List.length_nil, lt_self_iff_false, ne_eq, not_true_eq_false,
    false_and, or_self, if_false, List.take_zero, true_and, gt_iff_lt]
  by_cases h : ln = start.Name.Local
  · rw [if_pos h, if_pos h.symm]
    simp only []
    cases xml.unmarshalStruct ltinfo start children (getL r) <;> rfl
  · rw [if_neg h, if_neg (fun h2 => h h2.symm)]

theorem unmarshalChildren_skip {ρ σ : Type} (ln : GoString) (ltinfo : List (xml.Field σ))
    (getL : ρ → σ) (setL : σ → ρ → ρ) :
    ∀ (nodes : List xml.Node) (r : ρ), (xml.elementsNamed ln nodes).length = 0 →
      xml.unmarshalChildren [xml.structElement ln ltinfo getL setL] nodes r = .ok r := by
  intro nodes
  induction nodes with
  | nil => intro r _; rfl
  | cons n rest ih =>
    intro r h
    cases n with
    | element start ch =>
      unfold xml.elementsNamed at h
      by_cases hn : start.Name.Local = ln
      · rw [if_pos hn] at h
        simp at h
      · rw [if_neg hn] at h
        unfold xml.unmarshalChildren
        rw [unmarshalPath_root, if_neg hn]
        exact ih r h
    | charData data => exact ih r h
    | other => exact ih r h

theorem unmarshalChildren_root {ρ σ : Type} (ln : GoString) (ltinfo : List (xml.Field σ))
    (getL : ρ → σ) (setL : σ → ρ → ρ) (start : xml.StartElement) (hs : start.Name.Local = ln)
    (children after : List xml.Node) (hafter : (xml.elementsNamed ln after).length = 0) :
    ∀ (before : List xml.Node) (r : ρ), (xml.elementsNamed ln before).length = 0 →
      xml.unmarshalChildren [xml.structElement ln ltinfo getL setL]
          (before ++ xml.Node.element start children :: after) r
        = match xml.unmarshalStruct ltinfo start children (getL r) with
          | .error e => .error e
          | .ok v => .ok (setL v r) := by
  intro before
  induction before with
  | nil =>
    intro r _
    rw [List.nil_append]
    unfold xml.unmarshalChildren
    rw [unmarshalPath_root, if_pos hs]
    cases xml.unmarshalStruct ltinfo start children (getL r) with
    | error e => rfl
    | ok v =>
      simp only []
      exact unmarshalChildren_skip ln ltinfo getL setL after _ hafter
  | cons n rest ih =>
    intro r h
    cases n with
    | element st ch =>
      unfold xml.elementsNamed at h
      by_cases hn : st.Name.Local = ln
      · rw [if_pos hn] at h
        simp at h
      · rw [if_neg hn] at h
        rw [List.cons_append]
        unfold xml.unmarshalChildren
        rw [unmarshalPath_root, if_neg hn]
        exact ih r h
    | charData data => exact ih r h
    | other => exact ih r h

theorem assignAttrs_root {ρ σ : Type} (ln : GoString) (ltinfo : List (xml.Field σ))
    (getL : ρ → σ) (setL : σ → ρ → ρ) :
    ∀ (attrs : List xml.Attr) (r : ρ),
      xml.assignAttrs [xml.structElement ln ltinfo getL setL] attrs r = .ok r := by
  intro attrs
  induction attrs with
  | nil => intro r; rfl
  | cons a rest ih =>
    intro r
    unfold xml.assignAttrs
    have : xml.assignAttr [xml.structElement ln ltinfo getL setL] a r = .ok r := rfl
    rw [this]
    exact ih r

theorem Unmarshal_prolog {ρ : Type} (tinfo : List (xml.Field ρ)) (root : xml.StartElement)
    (rc epilog : List xml.Node) (r : ρ) :
    ∀ prolog : List xml.Node, (∀ n ∈ prolog, n.isElement = false) →
      xml.Unmarshal tinfo (prolog ++ xml.Node.element root rc :: epilog) r
        = xml.unmarshalStruct tinfo root rc r := by
  intro prolog
  induction prolog with
  | nil => intro _; rfl
  | cons n rest ih =>
    intro h
    have hrest : ∀ n ∈ rest, n.isElement = false := fun m hm => h m (List.mem_cons_of_mem _ hm)
    have hn := h n (List.mem_cons_self _ _)
    cases n with
    | element st ch => cases hn
    | charData data => exact ih hrest
    | other => exact ih hrest

/-- Decoding a list document: the destination receives the reported count and
offset and one entity per entity element, in document order, when each entity
element decodes. -/
theorem Unmarshal_listDocument {ρ σ τ : Type} (ln en : GoString) (getL : ρ → σ)
    (setL : σ → ρ → ρ) (setC setO : Int → σ → σ) (getC getO : σ → Int)
    (etinfo : List (xml.Field τ)) (ezero : τ) (getI : σ → List τ) (setI : List τ → σ → σ)
    (l0 : ∀ l r, getL (setL l r) = l)
    (l1 : ∀ c v, getC (setC c v) = c) (l2 : ∀ o v, getC (setO o v) = getC v)
    (l3 : ∀ c v, getO (setC c v) = getO v) (l4 : ∀ o v, getO (setO o v) = o)
    (l5 : ∀ c v, getI (setC c v) = getI v) (l6 : ∀ o v, getI (setO o v) = getI v)
    (l7 : ∀ l v, getI (setI l v) = l) (l8 : ∀ l v, getC (setI l v) = getC v)
    (l9 : ∀ l v, getO (setI l v) = getO v)
    (d : ListDocument) (C O : Int) (hrep : d.reports ln C O)
    (hdec : ∀ p ∈ xml.elementsNamed en d.children,
      ∃ e, xml.unmarshalStruct etinfo p.1 p.2 ezero = .ok e)
    (rzero : ρ) (hz : getI (getL rzero) = []) :
    ∃ r, xml.Unmarshal
          [xml.structElement ln
            [xml.intAttr [] (ascii "count") setC, xml.intAttr [] (ascii "offset") setO,
              xml.sliceElement [] en etinfo ezero getI setI] getL setL]
          (d.nodes ln) rzero = .ok r ∧
      getC (getL r) = C ∧ getO (getL r) = O ∧
      List.Forall₂ (fun p e => xml.unmarshalStruct etinfo p.1 p.2 ezero = .ok e)
        (xml.elementsNamed en d.children) (getI (getL r)) := by
  obtain ⟨hprolog, hbefore, hafter, hc1, hc2, ho1, ho2, ⟨hC1, hC2⟩, ⟨hO1, hO2⟩⟩ := hrep
  obtain ⟨v1, hv1, hI1, hcount, -, hoffset, -⟩ :=
    assignAttrs_list setC setO getC getO en etinfo ezero getI setI l1 l2 l3 l4 l5 l6 C O
      hC1 hC2 hO1 hO2 d.attrs (getL rzero) hc2 ho2
  obtain ⟨v2, es, hv2, hc, ho, hi, hf⟩ :=
    unmarshalChildren_list setC setO getC getO en etinfo ezero getI setI l7 l8 l9
      d.children v1 hdec
  have hlist : xml.unmarshalStruct
      [xml.intAttr [] (ascii "count") setC, xml.intAttr [] (ascii "offset") setO,
        xml.sliceElement [] en etinfo ezero getI setI]
      { Name := { Space := d.space, Local := ln }, Attr := d.attrs } d.children (getL rzero)
      = .ok v2 := by
    unfold xml.unmarshalStruct
    simp only []
    rw [hv1]
    simp only []
    rw [hv2]
    rfl
  refine ⟨setL v2 rzero, ?_, ?_, ?_, ?_⟩
  · unfold ListDocument.nodes
    rw [Unmarshal_prolog _ _ _ _ _ d.prolog hprolog]
    unfold xml.unmarshalStruct
    rw [assignAttrs_root]
    simp only []
    rw [unmarshalChildren_root ln _ getL setL _ rfl d.children d.after hafter d.before rzero
      hbefore, hlist]
    rfl
  · rw [l0, hc, hcount hc1]
  · rw [l0, ho, hoffset ho1]
  · rw [l0, hi, hI1, hz, List.nil_append]
    exact hf

/-- Decoding a document whose root element is itself the list container: the
name of the root element is compared with nothing (the list-result types have
no `XMLName` field) and only its children are matched against the tag of the
container, so `Unmarshal` returns no error and the destination as it was. -/
theorem Unmarshal_bare {ρ σ : Type} (ln : GoString) (ltinfo : List (xml.Field σ))
    (getL : ρ → σ) (setL : σ → ρ → ρ) (d : ListDocument) (rzero : ρ)
    (hprolog : ∀ n ∈ d.prolog, n.isElement = false)
    (hchildren : (xml.elementsNamed ln d.children).length = 0) :
    xml.Unmarshal [xml.structElement ln ltinfo getL setL] (d.bare ln) rzero = .ok rzero := by
  unfold ListDocument.bare
  rw [Unmarshal_prolog _ _ _ _ _ d.prolog hprolog]
  unfold xml.unmarshalStruct
  rw [assignAttrs_root]
  simp only []
  rw [unmarshalChildren_skip ln ltinfo getL setL d.children rzero hchildren]
  rfl

/-- The container as the root element: the document
`<artist-list count="5" offset="2">` with three `artist` children and no
element around it decodes without error to the zero value, `Count = 0`,
`Offset = 0` and no artists. -/
theorem Unmarshal_bare_exampleArtists :
    xml.Unmarshal artistSearchRequest.tinfo (exampleArtists.bare (ascii "artist-list"))
        artistSearchRequest.zero
      = .ok artistSearchRequest.zero := by
  decide

/-- An attribute with the local name `count` in another name space is stored
as well: with `count="1"` followed by `x:count="9"` the decoded `Count` is 9. -/
theorem Unmarshal_exampleForeignCount :
    xml.Unmarshal artistSearchRequest.tinfo (exampleForeignCount.nodes (ascii "artist-list"))
        artistSearchRequest.zero
      = .ok { ArtistList := { Count := 9, Offset := 0, Artists := [] } } := by
  decide

theorem isOk_exists {ε α : Type} (x : Except ε α) (h : x.isOk = true) : ∃ e, x = .ok e := by
  cases x with
  | error e => cases h
  | ok v => exact ⟨v, rfl⟩

/-! ## The claims -/

/-- C1: for every text of the shape `YYYY-MM-DD` (year 0000..9999, month 01..12,
a day that exists in that month of that year) `UnmarshalXML` returns no error
and sets the receiver to `time.Date(Y, M, D, 0, 0, 0, 0, time.UTC)`; that value
is midnight UTC (no nanoseconds, location UTC, a whole number of days) of the
calendar date `Y-M-D`. -/
theorem C1_full_date_decodes_to_midnight_utc (t : BrainzTime) (Y M D : Nat) (hY : Y < 10000)
    (hM1 : 1 ≤ M) (hM : M ≤ 12) (hD : validDate Y M D) :
    BrainzTime.UnmarshalXML t (dateText Y M D) = ({ Time := time.Date Y M D 0 0 0 0 }, none) ∧
      time.absDate (time.Date Y M D 0 0 0 0).locabs = ((Y : Int), (M : Int), (D : Int)) ∧
      (time.Date Y M D 0 0 0 0).wall = 0 ∧ (time.Date Y M D 0 0 0 0).loc = none ∧
      (time.Date Y M D 0 0 0 0).ext % 86400 = 0 := by
  have hD31 : D ≤ 31 := by
    have := time.monthLength_le (leapYear Y) M
    unfold validDate at hD
    omega
  refine ⟨?_, time.absDate_Date Y M D hY hM1 hM hD.1 hD.2, Date_midnight Y M D hY hM1 hM hD⟩
  rw [UnmarshalXML_dateText t Y M D hY (by omega) (by omega), if_neg (by omega), if_pos hD]

/-- C1, at the date of the test fixture: `"2007-09-21"` decodes to
`time.Date(2007, 9, 21, 0, 0, 0, 0, time.UTC)`. -/
theorem C1_witness :
    (dateText 2007 9 21 = ascii "2007-09-21" ∧ 2007 < 10000 ∧ 1 ≤ 9 ∧ 9 ≤ 12 ∧ validDate 2007 9 21) ∧
      (BrainzTime.UnmarshalXML { Time := time.Time.zero } (dateText 2007 9 21)
          = ({ Time := time.Date 2007 9 21 0 0 0 0 }, none) ∧
        time.absDate (time.Date 2007 9 21 0 0 0 0).locabs = (2007, 9, 21) ∧
        (time.Date 2007 9 21 0 0 0 0).wall = 0 ∧ (time.Date 2007 9 21 0 0 0 0).loc = none ∧
        (time.Date 2007 9 21 0 0 0 0).ext % 86400 = 0) :=
  ⟨by decide, C1_full_date_decodes_to_midnight_utc { Time := time.Time.zero } 2007 9 21
    (by decide) (by decide) (by decide) (by decide)⟩

/-- C2: `UnmarshalXML` dispatches on the number of hyphens of the element text.
A year-only text `YYYY` has 0 hyphens and decodes to January 1 of that year at
00:00 UTC; a year-month text `YYYY-MM` (month 01..12) has 1 hyphen and decodes
to the first day of that month at 00:00 UTC; and on every text with 0, 1 or 2
hyphens the outcome is that of `time.Parse` with the layout `"2006"`,
`"2006-01"` or `"2006-01-02"` respectively. -/
theorem C2_dispatch_on_hyphen_count (t : BrainzTime) (Y M : Nat) (hY : Y < 10000)
    (hM1 : 1 ≤ M) (hM : M ≤ 12) :
    (strings.Count (yearText Y) 45 = 0 ∧
      BrainzTime.UnmarshalXML t (yearText Y) = ({ Time := time.Date Y 1 1 0 0 0 0 }, none)) ∧
    (strings.Count (yearMonthText Y M) 45 = 1 ∧
      BrainzTime.UnmarshalXML t (yearMonthText Y M)
        = ({ Time := time.Date Y M 1 0 0 0 0 }, none)) ∧
    (∀ v : GoString, strings.Count v 45 ≤ 2 →
      BrainzTime.UnmarshalXML t v =
        match (time.Parse (layoutFor (strings.Count v 45)) v).2 with
        | some e => (t, some e)
        | none => ({ Time := (time.Parse (layoutFor (strings.Count v 45)) v).1 }, none)) ∧
    layoutFor 0 = time.layoutYear ∧ layoutFor 1 = time.layoutYearMonth ∧
    layoutFor 2 = time.layoutDate := by
  refine ⟨⟨Count_yearText Y hY, UnmarshalXML_yearText t Y hY⟩,
    ⟨Count_yearMonthText Y M hY (by omega), ?_⟩, ?_, rfl, rfl, rfl⟩
  · rw [UnmarshalXML_yearMonthText t Y M hY (by omega), if_neg (by omega)]
  · intro v hv
    have h012 : strings.Count v 45 = 0 ∨ strings.Count v 45 = 1 ∨ strings.Count v 45 = 2 := by
      omega
    rcases h012 with h | h | h
    · rw [UnmarshalXML_zero t v h, h]; rfl
    · rw [UnmarshalXML_one t v h, h]; rfl
    · rw [UnmarshalXML_two t v h, h]; rfl

/-- C2, at the year 1991 and the month 1991-04. -/
theorem C2_witness :
    (yearText 1991 = ascii "1991" ∧ yearMonthText 1991 4 = ascii "1991-04" ∧
      1991 < 10000 ∧ 1 ≤ 4 ∧ 4 ≤ 12) ∧
    BrainzTime.UnmarshalXML { Time := time.Time.zero } (yearText 1991)
      = ({ Time := time.Date 1991 1 1 0 0 0 0 }, none) ∧
    BrainzTime.UnmarshalXML { Time := time.Time.zero } (yearMonthText 1991 4)
      = ({ Time := time.Date 1991 4 1 0 0 0 0 }, none) :=
  ⟨by decide,
    (C2_dispatch_on_hyphen_count { Time := time.Time.zero } 1991 4
      (by decide) (by decide) (by decide)).1.2,
    (C2_dispatch_on_hyphen_count { Time := time.Time.zero } 1991 4
      (by decide) (by decide) (by decide)).2.1.2⟩

/-- C3 (the code at the failing input): on the empty element text
`UnmarshalXML` returns the parse error of `time.Parse("2006", "")` and leaves
the receiver as it was; it does not return `nil`. -/
theorem C3_empty_text_is_a_parse_error (t : BrainzTime) :
    BrainzTime.UnmarshalXML t [] = (t, some time.ParseError.bad) := by
  rfl

/-- C4 (the code at the failing inputs): on every element text with three or
more hyphens the `switch` selects no case, so `UnmarshalXML` returns `nil` and
stores the zero time. -/
theorem C4_three_or_more_hyphens_succeed (t : BrainzTime) (v : GoString)
    (h : 3 ≤ strings.Count v 45) :
    BrainzTime.UnmarshalXML t v = ({ Time := time.Time.zero }, none) :=
  UnmarshalXML_many t v h

/-- C4, at `"2007-09-21-01"` with a receiver that held another date. -/
theorem C4_witness :
    3 ≤ strings.Count (ascii "2007-09-21-01") 45 ∧
      BrainzTime.UnmarshalXML { Time := time.Date 2007 9 21 0 0 0 0 } (ascii "2007-09-21-01")
        = ({ Time := time.Time.zero }, none) :=
  ⟨by decide, C4_three_or_more_hyphens_succeed _ _ (by decide)⟩

/-- C5: a text `YYYY-MM` whose month is not in 01..12, and a text `YYYY-MM-DD`
whose month is not in 01..12 or whose day is not a day of that month in that
year, makes `UnmarshalXML` return an error ("month out of range", "day out of
range") and leave the receiver unchanged; no normalised date is produced. More
generally, every text with 0, 1 or 2 hyphens that is not the text of a
calendar date (`YYYY`, `YYYY-MM` or `YYYY-MM-DD` with the month and the day in
range) makes `UnmarshalXML` return an error and leave the receiver unchanged. -/
theorem C5_out_of_range_is_an_error (t : BrainzTime) :
    (∀ Y M : Nat, Y < 10000 → M < 100 → ¬ (1 ≤ M ∧ M ≤ 12) →
      BrainzTime.UnmarshalXML t (yearMonthText Y M)
        = (t, some time.ParseError.monthOutOfRange)) ∧
    (∀ Y M D : Nat, Y < 10000 → M < 100 → D < 100 → ¬ (1 ≤ M ∧ M ≤ 12) →
      BrainzTime.UnmarshalXML t (dateText Y M D)
        = (t, some time.ParseError.monthOutOfRange)) ∧
    (∀ Y M D : Nat, Y < 10000 → 1 ≤ M → M ≤ 12 → D < 100 → ¬ validDate Y M D →
      BrainzTime.UnmarshalXML t (dateText Y M D)
        = (t, some time.ParseError.dayOutOfRange)) ∧
    (∀ v : GoString, strings.Count v 45 ≤ 2 → ¬ isDateText v →
      ∃ e, BrainzTime.UnmarshalXML t v = (t, some e)) := by
  refine ⟨?_, ?_, ?_, ?_⟩
  · intro Y M hY hM hbad
    rw [UnmarshalXML_yearMonthText t Y M hY hM, if_pos (by omega)]
  · intro Y M D hY hM hD hbad
    rw [UnmarshalXML_dateText t Y M D hY hM hD, if_pos (by omega)]
  · intro Y M D hY hM1 hM hD hbad
    rw [UnmarshalXML_dateText t Y M D hY (by omega) hD, if_neg (by omega), if_neg hbad]
  · intro v hc hbad
    cases he : (BrainzTime.UnmarshalXML t v).2 with
    | some e => exact ⟨e, UnmarshalXML_error t v e he⟩
    | none =>
      exfalso
      apply hbad
      unfold isDateText
      rcases UnmarshalXML_ok t v he with ⟨-, h⟩ | ⟨-, h⟩ | ⟨-, h⟩ | h3
      · exact Or.inl h
      · exact Or.inr (Or.inl h)
      · exact Or.inr (Or.inr h)
      · omega

/-- C5, at `"2007-13"`, `"2007-00-10"` and `"2007-02-30"`. -/
theorem C5_witness :
    (yearMonthText 2007 13 = ascii "2007-13" ∧ dateText 2007 0 10 = ascii "2007-00-10" ∧
      dateText 2007 2 30 = ascii "2007-02-30") ∧
    BrainzTime.UnmarshalXML { Time := time.Time.zero } (yearMonthText 2007 13)
      = ({ Time := time.Time.zero }, some time.ParseError.monthOutOfRange) ∧
    BrainzTime.UnmarshalXML { Time := time.Time.zero } (dateText 2007 0 10)
      = ({ Time := time.Time.zero }, some time.ParseError.monthOutOfRange) ∧
    BrainzTime.UnmarshalXML { Time := time.Time.zero } (dateText 2007 2 30)
      = ({ Time := time.Time.zero }, some time.ParseError.dayOutOfRange) :=
  ⟨by decide,
    (C5_out_of_range_is_an_error _).1 2007 13 (by decide) (by decide) (by decide),
    (C5_out_of_range_is_an_error _).2.1 2007 0 10 (by decide) (by decide) (by decide) (by decide),
    (C5_out_of_range_is_an_error _).2.2.1 2007 2 30 (by decide) (by decide) (by decide)
      (by decide) (by decide)⟩

/-- C6: round trip. For every text `v` with 0, 1 or 2 hyphens on which
`UnmarshalXML` succeeds, formatting the decoded time with the layout selected
by the hyphen count of `v` gives back `v`. -/
theorem C6_round_trip (t : BrainzTime) (v : GoString) (hc : strings.Count v 45 ≤ 2)
    (hok : (BrainzTime.UnmarshalXML t v).2 = none) :
    (BrainzTime.UnmarshalXML t v).1.Time.Format (layoutFor (strings.Count v 45)) = v := by
  rcases UnmarshalXML_ok t v hok with ⟨h0, Y, hY, e⟩ | ⟨h1, Y, M, hY, hM1, hM, e⟩ |
    ⟨h2, Y, M, D, hY, hM1, hM, hD, e⟩ | h3
  · rw [h0, e, UnmarshalXML_yearText t Y hY]
    exact time.Format_year Y hY
  · rw [h1, e, UnmarshalXML_yearMonthText t Y M hY (by omega), if_neg (by omega)]
    exact time.Format_yearMonth Y M hY hM1 hM
  · have hD31 : D ≤ 31 := by
      have := time.monthLength_le (leapYear Y) M
      unfold validDate at hD
      omega
    rw [h2, e, UnmarshalXML_dateText t Y M D hY (by omega) (by omega), if_neg (by omega),
      if_pos hD]
    exact time.Format_date Y M D hY hM1 hM hD
  · omega

/-- C6, at `"2007-09-21"`. -/
theorem C6_witness :
    (strings.Count (ascii "2007-09-21") 45 ≤ 2 ∧
      (BrainzTime.UnmarshalXML { Time := time.Time.zero } (ascii "2007-09-21")).2 = none) ∧
    (BrainzTime.UnmarshalXML { Time := time.Time.zero } (ascii "2007-09-21")).1.Time.Format
      (layoutFor (strings.Count (ascii "2007-09-21") 45)) = ascii "2007-09-21" :=
  ⟨by decide, C6_round_trip _ _ (by decide) (by decide)⟩

/-- C7 as stated fails: the text `"0001-01-01"` decodes without error to the
zero `BrainzTime`, the very value of an absent date field. -/
theorem C7_counterexample :
    ¬ (∀ (t : BrainzTime) (v : GoString), (BrainzTime.UnmarshalXML t v).2 = none →
        (BrainzTime.UnmarshalXML t v).1 ≠ { Time := time.Time.zero }) := by
  intro h
  exact h { Time := time.Time.zero } (ascii "0001-01-01") (by decide) (by decide)

/-- C7 amended: among the texts with 0, 1 or 2 hyphens on which `UnmarshalXML`
succeeds, the ones that decode to the zero `BrainzTime` are exactly `"0001"`,
`"0001-01"` and `"0001-01-01"` (January 1 of year 1); every other one decodes
to a value different from the zero `BrainzTime`. -/
theorem C7_zero_value_is_january_first_of_year_one (t : BrainzTime) (v : GoString)
    (hc : strings.Count v 45 ≤ 2) (hok : (BrainzTime.UnmarshalXML t v).2 = none) :
    (BrainzTime.UnmarshalXML t v).1 = { Time := time.Time.zero } ↔
      (v = ascii "0001" ∨ v = ascii "0001-01" ∨ v = ascii "0001-01-01") := by
  have e1 : ascii "0001" = yearText 1 := by decide
  have e2 : ascii "0001-01" = yearMonthText 1 1 := by decide
  have e3 : ascii "0001-01-01" = dateText 1 1 1 := by decide
  rw [e1, e2, e3]
  constructor
  · intro hz
    rcases UnmarshalXML_ok t v hok with ⟨h0, Y, hY, e⟩ | ⟨h1, Y, M, hY, hM1, hM, e⟩ |
      ⟨h2, Y, M, D, hY, hM1, hM, hD, e⟩ | h3
    · rw [e, UnmarshalXML_yearText t Y hY] at hz
      simp only [BrainzTime.mk.injEq] at hz
      have := Date_eq_zero Y 1 1 hY (by omega) (by omega) (validDate_first Y 1 (by omega) (by omega))
        (by simpa using hz)
      left
      rw [e, this.1]
    · rw [e, UnmarshalXML_yearMonthText t Y M hY (by omega), if_neg (by omega)] at hz
      simp only [BrainzTime.mk.injEq] at hz
      have := Date_eq_zero Y M 1 hY hM1 hM (validDate_first Y M hM1 hM) (by simpa using hz)
      right; left
      rw [e, this.1, this.2.1]
    · have hD31 : D ≤ 31 := by
        have := time.monthLength_le (leapYear Y) M
        unfold validDate at hD
        omega
      rw [e, UnmarshalXML_dateText t Y M D hY (by omega) (by omega), if_neg (by omega),
        if_pos hD] at hz
      simp only [BrainzTime.mk.injEq] at hz
      have := Date_eq_zero Y M D hY hM1 hM hD hz
      right; right
      rw [e, this.1, this.2.1, this.2.2]
    · omega
  · intro hv
    rcases hv with h | h | h
    · rw [h, UnmarshalXML_yearText t 1 (by omega)]
      exact congrArg BrainzTime.mk Date_year_one
    · rw [h, UnmarshalXML_yearMonthText t 1 1 (by omega) (by omega), if_neg (by omega)]
      exact congrArg BrainzTime.mk Date_year_one
    · rw [h, UnmarshalXML_dateText t 1 1 1 (by omega) (by omega) (by omega), if_neg (by omega),
        if_pos (by decide)]
      exact congrArg BrainzTime.mk Date_year_one

/-- C7 amended, at `"2007-09-21"`: it does not decode to the zero `BrainzTime`. -/
theorem C7_witness :
    (strings.Count (ascii "2007-09-21") 45 ≤ 2 ∧
      (BrainzTime.UnmarshalXML { Time := time.Time.zero } (ascii "2007-09-21")).2 = none) ∧
    ((BrainzTime.UnmarshalXML { Time := time.Time.zero } (ascii "2007-09-21")).1
        = { Time := time.Time.zero } ↔
      (ascii "2007-09-21" = ascii "0001" ∨ ascii "2007-09-21" = ascii "0001-01" ∨
        ascii "2007-09-21" = ascii "0001-01-01")) :=
  ⟨by decide, C7_zero_value_is_january_first_of_year_one _ _ (by decide) (by decide)⟩

/-- C8 as stated fails: `"2007"`, `"2007-01"` and `"2007-01-01"` all decode
without error to one and the same value. -/
theorem C8_counterexample :
    ¬ ((BrainzTime.UnmarshalXML { Time := time.Time.zero } (ascii "2007")).1
          ≠ (BrainzTime.UnmarshalXML { Time := time.Time.zero } (ascii "2007-01")).1 ∧
        (BrainzTime.UnmarshalXML { Time := time.Time.zero } (ascii "2007")).1
          ≠ (BrainzTime.UnmarshalXML { Time := time.Time.zero } (ascii "2007-01-01")).1 ∧
        (BrainzTime.UnmarshalXML { Time := time.Time.zero } (ascii "2007-01")).1
          ≠ (BrainzTime.UnmarshalXML { Time := time.Time.zero } (ascii "2007-01-01")).1) := by
  decide

/-- C8 amended: a decoded date carries no precision. For every year `Y` and
month `M`, the texts `Y`, `Y-01` and `Y-01-01` decode to the same value,
January 1 of `Y` at 00:00 UTC, and the texts `Y-M` and `Y-M-01` decode to the
same value, the first day of that month at 00:00 UTC. -/
theorem C8_decoded_value_has_no_precision (t : BrainzTime) (Y M : Nat) (hY : Y < 10000)
    (hM1 : 1 ≤ M) (hM : M ≤ 12) :
    BrainzTime.UnmarshalXML t (yearText Y) = ({ Time := time.Date Y 1 1 0 0 0 0 }, none) ∧
    BrainzTime.UnmarshalXML t (yearMonthText Y 1) = ({ Time := time.Date Y 1 1 0 0 0 0 }, none) ∧
    BrainzTime.UnmarshalXML t (dateText Y 1 1) = ({ Time := time.Date Y 1 1 0 0 0 0 }, none) ∧
    BrainzTime.UnmarshalXML t (yearMonthText Y M) = ({ Time := time.Date Y M 1 0 0 0 0 }, none) ∧
    BrainzTime.UnmarshalXML t (dateText Y M 1) = ({ Time := time.Date Y M 1 0 0 0 0 }, none) := by
  refine ⟨UnmarshalXML_yearText t Y hY, ?_, ?_, ?_, ?_⟩
  · rw [UnmarshalXML_yearMonthText t Y 1 hY (by omega), if_neg (by omega)]
    rfl
  · rw [UnmarshalXML_dateText t Y 1 1 hY (by omega) (by omega), if_neg (by omega),
      if_pos (validDate_first Y 1 (by omega) (by omega))]
    rfl
  · rw [UnmarshalXML_yearMonthText t Y M hY (by omega), if_neg (by omega)]
  · rw [UnmarshalXML_dateText t Y M 1 hY (by omega) (by omega), if_neg (by omega),
      if_pos (validDate_first Y M hM1 hM)]
    rfl

/-- C8 amended, at the year 2007 and the month 2007-09. -/
theorem C8_witness :
    (2007 < 10000 ∧ 1 ≤ 9 ∧ 9 ≤ 12) ∧
    BrainzTime.UnmarshalXML { Time := time.Time.zero } (yearText 2007)
      = ({ Time := time.Date 2007 1 1 0 0 0 0 }, none) ∧
    BrainzTime.UnmarshalXML { Time := time.Time.zero } (yearMonthText 2007 1)
      = ({ Time := time.Date 2007 1 1 0 0 0 0 }, none) ∧
    BrainzTime.UnmarshalXML { Time := time.Time.zero } (dateText 2007 1 1)
      = ({ Time := time.Date 2007 1 1 0 0 0 0 }, none) ∧
    BrainzTime.UnmarshalXML { Time := time.Time.zero } (yearMonthText 2007 9)
      = ({ Time := time.Date 2007 9 1 0 0 0 0 }, none) ∧
    BrainzTime.UnmarshalXML { Time := time.Time.zero } (dateText 2007 9 1)
      = ({ Time := time.Date 2007 9 1 0 0 0 0 }, none) :=
  ⟨by decide, C8_decoded_value_has_no_precision _ 2007 9 (by decide) (by decide) (by decide)⟩

/-- C9 as stated fails: the well-formed document
`<metadata><artist-list count="1" offset="0"><artist id="a"><life-span>
<begin>unknown</begin></life-span></artist></artist-list></metadata>` reports
`count=1` and `offset=0` and has one `artist` child, yet decoding it yields no
entity: `xml.Unmarshal` returns the error of `BrainzTime.UnmarshalXML` on the
text `unknown`. -/
theorem C9_counterexample :
    exampleUnknownDate.reports (ascii "artist-list") 1 0 ∧
    (xml.elementsNamed (ascii "artist") exampleUnknownDate.children).length = 1 ∧
    xml.Unmarshal artistSearchRequest.tinfo (exampleUnknownDate.nodes (ascii "artist-list"))
        artistSearchRequest.zero
      = .error (xml.Error.time time.ParseError.bad) := by
  decide

/-- C9 amended: take a document that the decoder tokenizes without error
(well-formed XML 1.0 in UTF-8) and in which
* the list container (`artist-list`, `release-list` or `annotation-list`) is a
  child element of the root element of the document, the root being an element
  of its own around the container (of any name, as `metadata`), and the
  container is the only child of the root with that local name;
* the container has an attribute with the local name `count`, and every
  attribute of the container with the local name `count`, in whatever name
  space, has the decimal text of `C` as its value; likewise `offset` and `O`;
  `C` and `O` are 64-bit integers, written with a minus sign when negative and
  without plus sign, leading zero or blank;
* each child element of the container with the local name of the entity
  (`artist`, `release`, `annotation`), of which there are `n`, decodes without
  error on its own into a zero entity.

Then `xml.Unmarshal` of the document into a zero value of the matching
list-result type (`artistSearchRequest`, `releaseSearchRequest`,
`annotationListResult`) returns no error, stores `Count = C` and `Offset = O`
as reported (whatever `n` is, zero included) and yields exactly `n` entities in
document order: the i-th entity is the decoding of the i-th entity element.
The same holds for each of the three entity types. -/
theorem C9_list_envelope_reports_count_offset_and_entities (d : ListDocument) (C O : Int) :
    (d.reports (ascii "artist-list") C O →
      (∀ p ∈ xml.elementsNamed (ascii "artist") d.children,
        (xml.unmarshalStruct Artist.tinfo p.1 p.2 Artist.zero).isOk = true) →
      ∃ r, xml.Unmarshal artistSearchRequest.tinfo (d.nodes (ascii "artist-list"))
            artistSearchRequest.zero = .ok r ∧
        r.ArtistList.Count = C ∧ r.ArtistList.Offset = O ∧
        r.ArtistList.Artists.length = (xml.elementsNamed (ascii "artist") d.children).length ∧
        List.Forall₂ (fun p e => xml.unmarshalStruct Artist.tinfo p.1 p.2 Artist.zero = .ok e)
          (xml.elementsNamed (ascii "artist") d.children) r.ArtistList.Artists) ∧
    (d.reports (ascii "release-list") C O →
      (∀ p ∈ xml.elementsNamed (ascii "release") d.children,
        (xml.unmarshalStruct Release.tinfo p.1 p.2 Release.zero).isOk = true) →
      ∃ r, xml.Unmarshal releaseSearchRequest.tinfo (d.nodes (ascii "release-list"))
            releaseSearchRequest.zero = .ok r ∧
        r.ReleaseList.Count = C ∧ r.ReleaseList.Offset = O ∧
        r.ReleaseList.Releases.length = (xml.elementsNamed (ascii "release") d.children).length ∧
        List.Forall₂ (fun p e => xml.unmarshalStruct Release.tinfo p.1 p.2 Release.zero = .ok e)
          (xml.elementsNamed (ascii "release") d.children) r.ReleaseList.Releases) ∧
    (d.reports (ascii "annotation-list") C O →
      (∀ p ∈ xml.elementsNamed (ascii "annotation") d.children,
        (xml.unmarshalStruct annotationListResult_Elem.tinfo p.1 p.2
          annotationListResult_Elem.zero).isOk = true) →
      ∃ r, xml.Unmarshal annotationListResult.tinfo (d.nodes (ascii "annotation-list"))
            annotationListResult.zero = .ok r ∧
        r.AnnotationList.WS2ListResponse.Count = C ∧
        r.AnnotationList.WS2ListResponse.Offset = O ∧
        r.AnnotationList.Annotations.length
          = (xml.elementsNamed (ascii "annotation") d.children).length ∧
        List.Forall₂
          (fun p e => xml.unmarshalStruct annotationListResult_Elem.tinfo p.1 p.2
            annotationListResult_Elem.zero = .ok e)
          (xml.elementsNamed (ascii "annotation") d.children) r.AnnotationList.Annotations) := by
  refine ⟨?_, ?_, ?_⟩
  · intro hrep hdec
    obtain ⟨r, hr, hc, ho, hf⟩ :=
      Unmarshal_listDocument (ascii "artist-list") (ascii "artist")
        (fun v : artistSearchRequest => v.ArtistList) (fun l v => { v with ArtistList := l })
        (fun n v => { v with Count := n }) (fun n v => { v with Offset := n })
        (fun v => v.Count) (fun v => v.Offset) Artist.tinfo Artist.zero
        (fun v => v.Artists) (fun l v => { v with Artists := l })
        (fun _ _ => rfl) (fun _ _ => rfl) (fun _ _ => rfl) (fun _ _ => rfl) (fun _ _ => rfl)
        (fun _ _ => rfl) (fun _ _ => rfl) (fun _ _ => rfl) (fun _ _ => rfl) (fun _ _ => rfl)
        d C O hrep (fun p hp => isOk_exists _ (hdec p hp)) artistSearchRequest.zero rfl
    exact ⟨r, hr, hc, ho, hf.length_eq.symm, hf⟩
  · intro hrep hdec
    obtain ⟨r, hr, hc, ho, hf⟩ :=
      Unmarshal_listDocument (ascii "release-list") (ascii "release")
        (fun v : releaseSearchRequest => v.ReleaseList) (fun l v => { v with ReleaseList := l })
        (fun n v => { v with Count := n }) (fun n v => { v with Offset := n })
        (fun v => v.Count) (fun v => v.Offset) Release.tinfo Release.zero
        (fun v => v.Releases) (fun l v => { v with Releases := l })
        (fun _ _ => rfl) (fun _ _ => rfl) (fun _ _ => rfl) (fun _ _ => rfl) (fun _ _ => rfl)
        (fun _ _ => rfl) (fun _ _ => rfl) (fun _ _ => rfl) (fun _ _ => rfl) (fun _ _ => rfl)
        d C O hrep (fun p hp => isOk_exists _ (hdec p hp)) releaseSearchRequest.zero rfl
    exact ⟨r, hr, hc, ho, hf.length_eq.symm, hf⟩
  · intro hrep hdec
    obtain ⟨r, hr, hc, ho, hf⟩ :=
      Unmarshal_listDocument (ascii "annotation-list") (ascii "annotation")
        (fun v : annotationListResult => v.AnnotationList)
        (fun l v => { v with AnnotationList := l })
        (fun n v => { v with WS2ListResponse := { v.WS2ListResponse with Count := n } })
        (fun n v => { v with WS2ListResponse := { v.WS2ListResponse with Offset := n } })
        (fun v => v.WS2ListResponse.Count) (fun v => v.WS2ListResponse.Offset)
        annotationListResult_Elem.tinfo annotationListResult_Elem.zero
        (fun v => v.Annotations) (fun l v => { v with Annotations := l })
        (fun _ _ => rfl) (fun _ _ => rfl) (fun _ _ => rfl) (fun _ _ => rfl) (fun _ _ => rfl)
        (fun _ _ => rfl) (fun _ _ => rfl) (fun _ _ => rfl) (fun _ _ => rfl) (fun _ _ => rfl)
        d C O hrep (fun p hp => isOk_exists _ (hdec p hp)) annotationListResult.zero rfl
    exact ⟨r, hr, hc, ho, hf.length_eq.symm, hf⟩

/-- C9 amended, at a document with `count="5"`, `offset="2"` and three `artist`
children: the decode succeeds with `Count = 5`, `Offset = 2` and three artists. -/
theorem C9_witness :
    (exampleArtists.reports (ascii "artist-list") 5 2 ∧
      (xml.elementsNamed (ascii "artist") exampleArtists.children).length = 3 ∧
      ∀ p ∈ xml.elementsNamed (ascii "artist") exampleArtists.children,
        (xml.unmarshalStruct Artist.tinfo p.1 p.2 Artist.zero).isOk = true) ∧
    ∃ r, xml.Unmarshal artistSearchRequest.tinfo (exampleArtists.nodes (ascii "artist-list"))
          artistSearchRequest.zero = .ok r ∧
      r.ArtistList.Count = 5 ∧ r.ArtistList.Offset = 2 ∧
      r.ArtistList.Artists.length
        = (xml.elementsNamed (ascii "artist") exampleArtists.children).length ∧
      List.Forall₂ (fun p e => xml.unmarshalStruct Artist.tinfo p.1 p.2 Artist.zero = .ok e)
        (xml.elementsNamed (ascii "artist") exampleArtists.children) r.ArtistList.Artists :=
  ⟨by decide,
    (C9_list_envelope_reports_count_offset_and_entities exampleArtists 5 2).1 (by decide)
      (by decide)⟩

/-- C10: atomicity on failure. If `UnmarshalXML` returns an error, the receiver
still holds the value `t0` it had on entry. If it returns no error, the
receiver holds the time computed by the `switch` (the result of `time.Parse`
for 0, 1 or 2 hyphens), whatever `t0` was. Whether an error is returned does
not depend on `t0` either. -/
theorem C10_receiver_assigned_only_on_success (t0 : BrainzTime) (v : GoString) :
    (∀ e, (BrainzTime.UnmarshalXML t0 v).2 = some e → (BrainzTime.UnmarshalXML t0 v).1 = t0) ∧
    ((BrainzTime.UnmarshalXML t0 v).2 = none →
      (BrainzTime.UnmarshalXML t0 v).1 =
        { Time :=
            match strings.Count v 45 with
            | 0 => (time.Parse time.layoutYear v).1
            | 1 => (time.Parse time.layoutYearMonth v).1
            | 2 => (time.Parse time.layoutDate v).1
            | _ => time.Time.zero } ∧
      ∀ t1, BrainzTime.UnmarshalXML t1 v = BrainzTime.UnmarshalXML t0 v) ∧
    (∀ t1, (BrainzTime.UnmarshalXML t1 v).2 = (BrainzTime.UnmarshalXML t0 v).2) :=
  ⟨fun e he => by rw [UnmarshalXML_error t0 v e he],
    UnmarshalXML_success t0 v,
    fun t1 => UnmarshalXML_receiver_free t0 t1 v⟩

/-- C10, at a failing text (`"2007-02-30"`, receiver kept) and at a succeeding
one (`"2007-09-21"`, receiver replaced). -/
theorem C10_witness :
    ((BrainzTime.UnmarshalXML { Time := time.Date 1991 4 30 0 0 0 0 } (ascii "2007-02-30")).2
        = some time.ParseError.dayOutOfRange ∧
      (BrainzTime.UnmarshalXML { Time := time.Time.zero } (ascii "2007-09-21")).2 = none) ∧
    (BrainzTime.UnmarshalXML { Time := time.Date 1991 4 30 0 0 0 0 } (ascii "2007-02-30")).1
      = { Time := time.Date 1991 4 30 0 0 0 0 } ∧
    BrainzTime.UnmarshalXML { Time := time.Date 1991 4 30 0 0 0 0 } (ascii "2007-09-21")
      = BrainzTime.UnmarshalXML { Time := time.Time.zero } (ascii "2007-09-21") :=
  ⟨by decide,
    (C10_receiver_assigned_only_on_success _ _).1 time.ParseError.dayOutOfRange (by decide),
    ((C10_receiver_assigned_only_on_success { Time := time.Time.zero } _).2.1 (by decide)).2 _⟩
